import Mathlib

/-!
Shallow embedding of the chickencraft voxel world core
(`src/world/Chunk.ts`, `src/world/World.ts`, `src/world/WorldGen.ts`,
the chunk mesher, and the block registry).

Conventions of the embedding:
* JavaScript numbers holding lattice coordinates are modelled as `Int`;
  the fractional settings and noise values of the terrain generator are
  modelled as `ℚ`.
* `Math.floor(a / b)` on integers is `Int.fdiv`; the JavaScript `%`
  operator (truncated remainder) is `Int.tmod`.
* A `Uint16Array` is modelled as a length (`size`) together with a
  total function from indices to 16-bit values.  JavaScript semantics of
  typed arrays: a read beyond the length yields `undefined`, which every
  bit operation coerces to `0`; a write beyond the length is dropped.
* Bit operations on 16-bit words are expressed arithmetically:
  `v & 0x3FF = v % 1024`, `(v >> 10) & 0x3F = v / 1024 % 64`,
  `v & 0xFFFF = v % 65536`.
* Mutation of a chunk or of the chunk map becomes explicit state passing:
  every mutating method returns the updated value.
-/

/-- `Math.floor(a / b)` for integer arguments and positive `b`. -/
def jsFloorDiv (a b : Int) : Int := Int.fdiv a b

/-- The JavaScript `%` operator on integers: truncated remainder. -/
def jsRemOp (a b : Int) : Int := Int.tmod a b

/-- `((a % n) + n) % n` as written in `World.worldToLocalCoord`
(JavaScript `%` is the truncated remainder). -/
def euclidModJS (a n : Int) : Int := jsRemOp (jsRemOp a n + n) n

/-- Inclusive integer range `[a..b]`, the list a `for (x = a; x <= b; x++)`
loop iterates over. -/
def intRangeAux (lo : Int) : Nat → List Int
  | 0 => []
  | n + 1 => lo :: intRangeAux (lo + 1) n

def intRangeIncl (a b : Int) : List Int := intRangeAux a (b + 1 - a).toNat

/-! ## Constants (src/world/Chunk.ts, src/world/World.ts) -/

def CHUNK_WIDTH : Int := 32
def CHUNK_HEIGHT : Int := 64
def CHUNK_DEPTH : Int := 32

/-- `CHUNK_WIDTH * CHUNK_HEIGHT * CHUNK_DEPTH`, as the `Nat` length of the
backing `Uint16Array`. -/
def CHUNK_SIZE : Nat := 32 * 64 * 32

def WORLD_WIDTH : Int := 1024
def WORLD_DEPTH : Int := 1024
def WORLD_MIN_Y : Int := -32
def WORLD_MAX_Y : Int := 192
def SEA_LEVEL : Int := 0

/-! ## Block registry (src/world/Block.ts) -/

namespace BlockId

def AIR : Nat := 0
def GRASS : Nat := 1
def WOOD : Nat := 2
def BRICK : Nat := 3
def BEDROCK : Nat := 4
def LAVA : Nat := 5
def CHICKENHEAD : Nat := 6
def CRAFTING_TABLE : Nat := 7

end BlockId

/-- One entry of the block registry.  The float-valued fields `hardness`,
`damage` and `emits` of the source `BlockDef` are omitted: no operation
modelled here reads them.  The source field `opaque` is a Lean keyword and
is embedded as `opaq`. -/
structure BlockDef where
  id : Nat
  name : String
  solid : Bool
  opaq : Bool
  faceTiles : Fin 6 → Nat

namespace BlockRegistry

def airDef : BlockDef := ⟨0, "Air", false, false, fun _ => 0⟩

/-- faceTiles: GRASS_TOP, DIRT, then GRASS_SIDE on the four sides. -/
def grassDef : BlockDef :=
  ⟨1, "Grass", true, true, fun d => [0, 2, 1, 1, 1, 1].get d⟩

def woodDef : BlockDef := ⟨2, "Wood", true, true, fun _ => 3⟩

def brickDef : BlockDef := ⟨3, "Brick", true, true, fun _ => 4⟩

def bedrockDef : BlockDef := ⟨4, "Bedrock", true, true, fun _ => 5⟩

/-- Lava is registered non-solid but opaque. -/
def lavaDef : BlockDef := ⟨5, "Lava", false, true, fun _ => 6⟩

def chickenheadDef : BlockDef :=
  ⟨6, "Chickenhead", true, true, fun d => [8, 8, 8, 8, 7, 8].get d⟩

def craftingTableDef : BlockDef :=
  ⟨7, "Crafting Table", true, true, fun d => [9, 3, 10, 10, 10, 10].get d⟩

/-- The registration list of `registerBlocks`. -/
def blockList : List BlockDef :=
  [airDef, grassDef, woodDef, brickDef, bedrockDef, lavaDef,
   chickenheadDef, craftingTableDef]

/-- `BlockRegistry.getBlock`: lookup in the id-keyed map built by
`registerBlocks` (ids are distinct, so the map is the association list). -/
def getBlock (id : Nat) : Option BlockDef :=
  blockList.find? (fun b => b.id = id)

def isAir (id : Nat) : Bool := id = 0

def isSolid (id : Nat) : Bool :=
  match getBlock id with
  | some b => b.solid
  | none => false

def isOpaque (id : Nat) : Bool :=
  match getBlock id with
  | some b => b.opaq
  | none => false

end BlockRegistry

/-! ## Chunk (src/world/Chunk.ts) -/

structure ChunkCoord where
  x : Int
  z : Int
deriving DecidableEq, Repr

structure Vec3 where
  x : Int
  y : Int
  z : Int
deriving DecidableEq, Repr

/-- A chunk: identity, `Uint16Array` backing store and the dirty flag.
`size` is the length of the backing typed array (always `CHUNK_SIZE`
unless `deserialize` installed a buffer of another length); `voxels i` is
the 16-bit word at index `i < size`. -/
structure Chunk where
  coord : ChunkCoord
  yOffset : Int
  size : Nat
  voxels : Nat → Nat
  isDirty : Bool

namespace Chunk

/-- `new Chunk(coord, yOffset)`: a zeroed `Uint16Array(CHUNK_SIZE)`, not
dirty. -/
def new (coord : ChunkCoord) (yOffset : Int) : Chunk :=
  ⟨coord, yOffset, CHUNK_SIZE, fun _ => 0, false⟩

def getCoord (c : Chunk) : ChunkCoord := c.coord

def getYOffset (c : Chunk) : Int := c.yOffset

def markDirty (c : Chunk) : Chunk := { c with isDirty := true }

def clearDirty (c : Chunk) : Chunk := { c with isDirty := false }

def needsRemesh (c : Chunk) : Bool := c.isDirty

/-- Read `this.voxels[i]` as the 16-bit word every bit operation sees: a
read beyond the typed array's length is `undefined`, coerced to `0`. -/
def readU16 (c : Chunk) (i : Nat) : Nat :=
  if i < c.size then c.voxels i % 65536 else 0

/-- Write `this.voxels[i] = v`: stores the low 16 bits; a write beyond the
typed array's length is dropped. -/
def writeU16 (c : Chunk) (i : Nat) (v : Nat) : Chunk :=
  if i < c.size then
    { c with voxels := fun j => if j = i then v % 65536 else c.voxels j }
  else c

/-- `getIndex`: `-1` (here `none`) outside `[0,W)×[0,H)×[0,D)`, else the
linear index `x + z*W + y*W*D`. -/
def getIndex (x y z : Int) : Option Nat :=
  if x < 0 ∨ CHUNK_WIDTH ≤ x ∨ y < 0 ∨ CHUNK_HEIGHT ≤ y ∨
     z < 0 ∨ CHUNK_DEPTH ≤ z then none
  else some (x + z * CHUNK_WIDTH + y * CHUNK_WIDTH * CHUNK_DEPTH).toNat

/-- `getVoxel`: air (`0`) when out of range, else the word `& 0x3FF`. -/
def getVoxel (c : Chunk) (x y z : Int) : Nat :=
  match getIndex x y z with
  | none => BlockId.AIR
  | some i => c.readU16 i % 1024

/-- `setVoxel`: no-op out of range; in range it keeps the metadata bits,
stores `(voxel & 0x3FF) | (meta << 10)`; `this.isDirty = true` is the
`markDirty` method. -/
def setVoxel (c : Chunk) (x y z : Int) (voxel : Nat) : Chunk :=
  match getIndex x y z with
  | none => c
  | some i =>
    let meta := c.readU16 i / 1024 % 64
    (c.writeU16 i (voxel % 1024 + meta * 1024)).markDirty

/-- `getBlockId`: `getVoxel(...) & 0x3FF` (the mask is applied twice in
the source). -/
def getBlockId (c : Chunk) (x y z : Int) : Nat :=
  c.getVoxel x y z % 1024

def setBlockId (c : Chunk) (x y z : Int) (blockId : Nat) : Chunk :=
  c.setVoxel x y z blockId

/-- `getMeta`: `0` out of range, else `(word >> 10) & 0x3F`. -/
def getMeta (c : Chunk) (x y z : Int) : Nat :=
  match getIndex x y z with
  | none => 0
  | some i => c.readU16 i / 1024 % 64

/-- `setMeta`: no-op out of range; in range it keeps the block id bits,
stores `(blockId & 0x3FF) | ((meta & 0x3F) << 10)` and marks dirty. -/
def setMeta (c : Chunk) (x y z : Int) (meta : Nat) : Chunk :=
  match getIndex x y z with
  | none => c
  | some i =>
    let blockId := c.readU16 i % 1024
    (c.writeU16 i (blockId % 1024 + meta % 64 * 1024)).markDirty

/-- `fill`: `this.voxels[i] = blockId & 0x3FF` for every `i < CHUNK_SIZE`
(writes beyond the installed array length are dropped), then mark dirty. -/
def fill (c : Chunk) (blockId : Nat) : Chunk :=
  { c with
    voxels := fun j => if j < CHUNK_SIZE ∧ j < c.size then blockId % 1024 else c.voxels j,
    isDirty := true }

def getWorldPosition (c : Chunk) : Vec3 :=
  ⟨c.coord.x * CHUNK_WIDTH, c.yOffset, c.coord.z * CHUNK_DEPTH⟩

end Chunk

/-- An `ArrayBuffer`: a byte length and the byte at each index below it. -/
structure ByteBuffer where
  byteLength : Nat
  byteAt : Nat → Nat

namespace Chunk

/-- `serialize()`: a copy of the backing store's bytes — `2 * size` bytes,
one little-endian 16-bit word per cell in index order. -/
def serialize (c : Chunk) : ByteBuffer :=
  ⟨2 * c.size, fun i =>
    if i < 2 * c.size then
      (if i % 2 = 0 then c.readU16 (i / 2) % 256 else c.readU16 (i / 2) / 256)
    else 0⟩

/-- `deserialize(buffer)`: `new Uint16Array(buffer)` throws a `RangeError`
when the byte length is odd; otherwise the buffer — whatever its length —
is installed as the new backing store and the chunk is marked dirty. -/
def deserialize (c : Chunk) (b : ByteBuffer) : Except String Chunk :=
  if b.byteLength % 2 ≠ 0 then
    Except.error "RangeError: byte length is not a multiple of 2"
  else
    Except.ok
      { c with
        size := b.byteLength / 2,
        voxels := fun i =>
          if i < b.byteLength / 2 then
            b.byteAt (2 * i) % 256 + b.byteAt (2 * i + 1) % 256 * 256
          else 0,
        isDirty := true }

end Chunk

/-! ## World (src/world/World.ts) -/

inductive BiomeMix where
  | Balanced
  | Flatlands
  | Highlands
  | Archipelago
deriving DecidableEq, Repr

/-- `WorldSettings` (src/types/index.ts): immutable generation
configuration. -/
structure WorldSettings where
  seed : Nat
  mountainous : ℚ
  roughness : ℚ
  moisture : ℚ
  temperature : ℚ
  trees : ℚ
  lavaPockets : ℚ
  biomeMix : BiomeMix
  surprises : Bool

/-- The chunk map keyed by `"chunkX,yOffset,chunkZ"`; distinct integer
triples give distinct string keys, so the key is modelled as the triple
itself. -/
structure World where
  settings : WorldSettings
  chunks : Int → Int → Int → Option Chunk

/-- The result record of `worldToLocalCoord`; the source field `local` is
a Lean keyword and is embedded as `localPos`. -/
structure LocalCoord where
  chunk : ChunkCoord
  yOffset : Int
  localPos : Vec3
deriving DecidableEq, Repr

namespace World

/-- `worldToChunkCoord`: `Math.floor(x/W)`, `Math.floor(z/D)`. -/
def worldToChunkCoord (worldX worldZ : Int) : ChunkCoord :=
  ⟨jsFloorDiv worldX CHUNK_WIDTH, jsFloorDiv worldZ CHUNK_DEPTH⟩

/-- `worldToChunkY`: `Math.floor((y - YMIN)/H) * H + YMIN`. -/
def worldToChunkY (worldY : Int) : Int :=
  jsFloorDiv (worldY - WORLD_MIN_Y) CHUNK_HEIGHT * CHUNK_HEIGHT + WORLD_MIN_Y

/-- `worldToLocalCoord`. -/
def worldToLocalCoord (p : Vec3) : LocalCoord :=
  { chunk := worldToChunkCoord p.x p.z
    yOffset := worldToChunkY p.y
    localPos := ⟨euclidModJS p.x CHUNK_WIDTH, p.y - worldToChunkY p.y,
              euclidModJS p.z CHUNK_DEPTH⟩ }

def getChunk (w : World) (cx yOff cz : Int) : Option Chunk :=
  w.chunks cx yOff cz

/-- `this.chunks.set(key, chunk)`. -/
def insertChunk (w : World) (cx yOff cz : Int) (c : Chunk) : World :=
  { w with chunks := fun a b d =>
      if a = cx ∧ b = yOff ∧ d = cz then some c else w.chunks a b d }

/-- `getOrCreateChunk`: the chunk at the key, creating and inserting a
fresh one when absent; returns the chunk together with the updated map. -/
def getOrCreateChunk (w : World) (cx yOff cz : Int) : Chunk × World :=
  match w.chunks cx yOff cz with
  | some c => (c, w)
  | none =>
    let c := Chunk.new ⟨cx, cz⟩ yOff
    (c, w.insertChunk cx yOff cz c)

/-- `getBlock`: missing chunk reads as air, no allocation.  The source
applies `Math.floor` to the local coordinates; they are integers here. -/
def getBlock (w : World) (worldPos : Vec3) : Nat :=
  let r := worldToLocalCoord worldPos
  match w.getChunk r.chunk.x r.yOffset r.chunk.z with
  | none => BlockId.AIR
  | some c => c.getBlockId r.localPos.x r.localPos.y r.localPos.z

/-- `this.getChunk(...)?.markDirty()`: marks the chunk at the key dirty
when it exists, otherwise does nothing. -/
def markDirtyAt (w : World) (cx yOff cz : Int) : World :=
  match w.chunks cx yOff cz with
  | none => w
  | some c => w.insertChunk cx yOff cz c.markDirty

/-- One `if (local.? === ?) { this.getChunk(...)?.markDirty() }` step of
`setBlock`. -/
def markDirtyIf (w : World) (b : Bool) (cx yOff cz : Int) : World :=
  if b then w.markDirtyAt cx yOff cz else w

/-- `setBlock`: resolve, get-or-create the chunk, write the voxel, then
mark each already-existing face-adjacent neighbor dirty (the six `if`s of
the source, in order). -/
def setBlock (w : World) (worldPos : Vec3) (blockId : Nat) : World :=
  let r := worldToLocalCoord worldPos
  let cw := w.getOrCreateChunk r.chunk.x r.yOffset r.chunk.z
  ((((((cw.2.insertChunk r.chunk.x r.yOffset r.chunk.z
      (cw.1.setBlockId r.localPos.x r.localPos.y r.localPos.z blockId)).markDirtyIf
    (r.localPos.x == 0) (r.chunk.x - 1) r.yOffset r.chunk.z).markDirtyIf
    (r.localPos.x == CHUNK_WIDTH - 1) (r.chunk.x + 1) r.yOffset r.chunk.z).markDirtyIf
    (r.localPos.z == 0) r.chunk.x r.yOffset (r.chunk.z - 1)).markDirtyIf
    (r.localPos.z == CHUNK_DEPTH - 1) r.chunk.x r.yOffset (r.chunk.z + 1)).markDirtyIf
    (r.localPos.y == 0) r.chunk.x (r.yOffset - CHUNK_HEIGHT) r.chunk.z).markDirtyIf
    (r.localPos.y == CHUNK_HEIGHT - 1) r.chunk.x (r.yOffset + CHUNK_HEIGHT) r.chunk.z

def isSolid (w : World) (worldPos : Vec3) : Bool :=
  BlockRegistry.isSolid (w.getBlock worldPos)

def isInBounds (worldPos : Vec3) : Bool :=
  decide (0 ≤ worldPos.x) && decide (worldPos.x < WORLD_WIDTH) &&
  decide (WORLD_MIN_Y ≤ worldPos.y) && decide (worldPos.y ≤ WORLD_MAX_Y) &&
  decide (0 ≤ worldPos.z) && decide (worldPos.z < WORLD_DEPTH)

/-- The vertical bands `for (y = WORLD_MIN_Y; y < WORLD_MAX_Y; y += CHUNK_HEIGHT)`
iterates over. -/
def yBands : List Int := [-32, 32, 96, 160]

/-- `getChunksInRadius`: the resident chunks of every vertical band in the
square box of chunk cells of half-width `Math.ceil(radius / CHUNK_WIDTH)`
around the chunk containing `center`. -/
def getChunksInRadius (w : World) (center : Vec3) (radius : ℚ) : List Chunk :=
  let centerChunk := worldToChunkCoord center.x center.z
  let chunkRadius : Int := Rat.ceil (radius / 32)
  (intRangeIncl (centerChunk.x - chunkRadius) (centerChunk.x + chunkRadius)).flatMap
    fun x =>
      (intRangeIncl (centerChunk.z - chunkRadius) (centerChunk.z + chunkRadius)).flatMap
        fun z => yBands.filterMap fun y => w.getChunk x y z

def clear (w : World) : World := { w with chunks := fun _ _ _ => none }

end World

/-- A `WorldSettings` value with everything zeroed; the concrete wiring of
scenario worlds below. -/
def defaultSettings : WorldSettings :=
  ⟨0, 0, 0, 0, 0, 0, 0, BiomeMix.Balanced, false⟩

/-- `new World(settings)` with the default settings: the empty chunk map. -/
def emptyWorld : World := ⟨defaultSettings, fun _ _ _ => none⟩

/-! ## ChunkMesher -/

/-- The growing `faces` record of `createChunkMesh`: vertex coordinates
(integers here — all corners are lattice points), UVs (rationals), normals
and triangle indices, each as the flat array the source pushes into. -/
structure Face where
  vertices : List Int
  uvs : List ℚ
  normals : List Int
  indices : List Nat

def Face.empty : Face := ⟨[], [], [], []⟩

namespace ChunkMesher

def atlasSize : Nat := 16

/-- `getFaceVertices`: the 4 corners (12 coordinates) of face `face` of
the unit cube at `(x, y, z)`, in the source's order. -/
def getFaceVertices (x y z : Int) (face : Nat) : List Int :=
  match face with
  | 0 => [x, y + 1, z, x + 1, y + 1, z, x + 1, y + 1, z + 1, x, y + 1, z + 1]
  | 1 => [x, y, z + 1, x + 1, y, z + 1, x + 1, y, z, x, y, z]
  | 2 => [x, y, z + 1, x, y + 1, z + 1, x + 1, y + 1, z + 1, x + 1, y, z + 1]
  | 3 => [x + 1, y, z, x + 1, y + 1, z, x, y + 1, z, x, y, z]
  | 4 => [x + 1, y, z, x + 1, y, z + 1, x + 1, y + 1, z + 1, x + 1, y + 1, z]
  | _ => [x, y, z + 1, x, y, z, x, y + 1, z, x, y + 1, z + 1]

/-- `getFaceNormals`: the per-direction constant normal, repeated for the
4 corners. -/
def getFaceNormals (face : Nat) : List Int :=
  match face with
  | 0 => [0, 1, 0, 0, 1, 0, 0, 1, 0, 0, 1, 0]
  | 1 => [0, -1, 0, 0, -1, 0, 0, -1, 0, 0, -1, 0]
  | 2 => [0, 0, 1, 0, 0, 1, 0, 0, 1, 0, 0, 1]
  | 3 => [0, 0, -1, 0, 0, -1, 0, 0, -1, 0, 0, -1]
  | 4 => [1, 0, 0, 1, 0, 0, 1, 0, 0, 1, 0, 0]
  | _ => [-1, 0, 0, -1, 0, 0, -1, 0, 0, -1, 0, 0]

/-- `getTextureUVs`: the 8 UV coordinates of tile `textureId` in the
`atlasSize × atlasSize` grid. -/
def getTextureUVs (textureId : Nat) : List ℚ :=
  let tileX := textureId % atlasSize
  let tileY := textureId / atlasSize
  let uMin : ℚ := tileX / (atlasSize : ℚ)
  let uMax : ℚ := (tileX + 1) / (atlasSize : ℚ)
  let vMin : ℚ := tileY / (atlasSize : ℚ)
  let vMax : ℚ := (tileY + 1) / (atlasSize : ℚ)
  [uMin, vMax, uMax, vMax, uMax, vMin, uMin, vMin]

/-- `addFace`: push 12 vertex coordinates, 12 normals, 8 UVs and the 6
triangle indices of the quad (`vertexOffset` is `vertices.length / 3`
before the push). -/
def addFace (faces : Face) (x y z : Int) (faceIndex : Nat) (textureId : Nat) : Face :=
  let vertexOffset := faces.vertices.length / 3
  { vertices := faces.vertices ++ getFaceVertices x y z faceIndex
    uvs := faces.uvs ++ getTextureUVs textureId
    normals := faces.normals ++ getFaceNormals faceIndex
    indices := faces.indices ++
      [vertexOffset, vertexOffset + 1, vertexOffset + 2,
       vertexOffset + 2, vertexOffset + 3, vertexOffset] }

/-- `shouldRenderFace`: the world-space neighbor voxel is not opaque. -/
def shouldRenderFace (world : World) (x y z : Int) : Bool :=
  !BlockRegistry.isOpaque (world.getBlock ⟨x, y, z⟩)

/-- The world-space offset tested for face index `d`, in the source's
order: +y, -y, +z, -z, +x, -x. -/
def dirOffset (d : Nat) : Int × Int × Int :=
  match d with
  | 0 => (0, 1, 0)
  | 1 => (0, -1, 0)
  | 2 => (0, 0, 1)
  | 3 => (0, 0, -1)
  | 4 => (1, 0, 0)
  | _ => (-1, 0, 0)

/-- Whether the loop body of `createChunkMesh` emits face `d` of the
local voxel `(x, y, z)`: the voxel is not air, its id is registered, and
the world-space neighbor in direction `d` is not opaque (the source's two
`continue`s and the per-direction `if`, folded into one condition). -/
def emitFace (chunk : Chunk) (world : World) (x y z d : Nat) : Bool :=
  let blockId := chunk.getBlockId x y z
  let wp := chunk.getWorldPosition
  let o := dirOffset d
  blockId ≠ 0 && (BlockRegistry.getBlock blockId).isSome &&
    shouldRenderFace world (wp.x + x + o.1) (wp.y + y + o.2.1) (wp.z + z + o.2.2)

/-- The atlas tile used for face `d` of the voxel at `(x, y, z)`
(`block.faceTiles[d]`; `0` for an unregistered id, never reached when
`emitFace` holds). -/
def faceTile (chunk : Chunk) (x y z : Nat) (d : Fin 6) : Nat :=
  match BlockRegistry.getBlock (chunk.getBlockId x y z) with
  | some b => b.faceTiles d
  | none => 0

/-- The iteration space of `createChunkMesh`: `x` outer, then `y`, then
`z`, then the six face directions in source order. -/
def cellDirs : List (Nat × Nat × Nat × Nat) :=
  (List.range 32).flatMap fun x =>
    (List.range 64).flatMap fun y =>
      (List.range 32).flatMap fun z =>
        (List.range 6).map fun d => (x, y, z, d)

/-- One step of the triple loop of `createChunkMesh`. -/
def meshStep (chunk : Chunk) (world : World) (faces : Face)
    (c : Nat × Nat × Nat × Nat) : Face :=
  if h : c.2.2.2 < 6 then
    if emitFace chunk world c.1 c.2.1 c.2.2.1 c.2.2.2 then
      addFace faces c.1 c.2.1 c.2.2.1 c.2.2.2
        (faceTile chunk c.1 c.2.1 c.2.2.1 ⟨c.2.2.2, h⟩)
    else faces
  else faces

/-- The `faces` record after the loops of `createChunkMesh`. -/
def buildFaces (chunk : Chunk) (world : World) : Face :=
  cellDirs.foldl (meshStep chunk world) Face.empty

/-- `createChunkMesh` without the Babylon scene objects: the mesh data
(`none` when zero faces were emitted — the source returns `null`) paired
with the chunk as left behind — `clearDirty()` runs only on the non-null
path.  The `scene`/`material` parameters and the `Mesh`/`VertexData`
constructions are rendering side effects outside this embedding. -/
def createChunkMesh (chunk : Chunk) (world : World) : Option Face × Chunk :=
  let faces := buildFaces chunk world
  if faces.vertices.length = 0 then (none, chunk)
  else (some faces, chunk.clearDirty)

end ChunkMesher

/-! ## WorldGenerator (src/world/WorldGen.ts) -/

/-- The four 2D noise fields of `WorldGenerator`.  In the source each is
`createNoise2D(rng)` with `rng = mulberry32(settings.seed)`: a pure
function determined by the seed alone.  The embedding abstracts the
simplex-noise float pipeline as rational-valued functions; what matters
for the claims is that both runs of a generator constructed from the same
seed share the same four functions. -/
structure NoiseFns where
  heightNoise : ℚ → ℚ → ℚ
  detailNoise : ℚ → ℚ → ℚ
  treeNoise : ℚ → ℚ → ℚ
  lavaNoise : ℚ → ℚ → ℚ

namespace WorldGenerator

/-- `getHeightAt`: the per-biome height formula, floored and clamped to
`[WORLD_MIN_Y + 3, 180]`. -/
def getHeightAt (noise : NoiseFns) (settings : WorldSettings) (x z : Int) : Int :=
  let freq1 : ℚ := 1 / 100
  let freq2 : ℚ := 1 / 20
  let freq3 : ℚ := 1 / 10
  let amplitude : ℚ := 20 + settings.mountainous * 60
  let roughnessScale : ℚ := 1 / 5 + settings.roughness * (4 / 5)
  let height : ℚ :=
    match settings.biomeMix with
    | BiomeMix.Flatlands =>
      (SEA_LEVEL : ℚ) + amplitude * (3 / 10) * noise.heightNoise (x * freq1) (z * freq1)
    | BiomeMix.Highlands =>
      (SEA_LEVEL : ℚ) + amplitude * noise.heightNoise (x * freq1) (z * freq1)
        + amplitude * (1 / 2) * noise.detailNoise (x * freq2) (z * freq2)
    | BiomeMix.Archipelago =>
      let islandNoise := noise.heightNoise (x * freq1 * (1 / 2)) (z * freq1 * (1 / 2))
      if islandNoise > 3 / 10 then
        (SEA_LEVEL : ℚ) + amplitude * (7 / 10) * islandNoise
      else (SEA_LEVEL : ℚ) - 10
    | BiomeMix.Balanced =>
      (SEA_LEVEL : ℚ) + amplitude * noise.heightNoise (x * freq1) (z * freq1)
        + amplitude * (3 / 10) * roughnessScale * noise.detailNoise (x * freq2) (z * freq2)
        + amplitude * (1 / 10) * roughnessScale * noise.heightNoise (x * freq3) (z * freq3)
  Rat.floor (max ((WORLD_MIN_Y : ℚ) + 3) (min height 180))

/-- The block id the column loop of `generateChunk` assigns at world
height `worldY` for a column of surface height `surfaceHeight` (the
bedrock / stone / surface cascade followed by the lava substitution). -/
def columnBlockId (noise : NoiseFns) (settings : WorldSettings)
    (surfaceHeight : Int) (worldX worldZ worldY : Int) : Nat :=
  let blockId :=
    if worldY ≤ WORLD_MIN_Y + 2 then BlockId.BEDROCK
    else if worldY < surfaceHeight - 3 then BlockId.BRICK
    else if worldY < surfaceHeight then BlockId.BRICK
    else if worldY = surfaceHeight then
      (if surfaceHeight > SEA_LEVEL then BlockId.GRASS else BlockId.BRICK)
    else BlockId.AIR
  if 0 < settings.lavaPockets ∧ worldY < -10 then
    let lavaChance := noise.lavaNoise (worldX * (1 / 20)) (worldZ * (1 / 20))
    if lavaChance > 1 - settings.lavaPockets * (3 / 10) ∧ blockId = BlockId.BRICK then
      BlockId.LAVA
    else blockId
  else blockId

/-- `chunk.setBlockId(...)` inside `generateChunk`, under the aliasing of
the source: the chunk being generated is the object stored in the world's
chunk map, so a write to it is a write to the mapped chunk.  A missing
chunk is a no-op (the generation driver always passes a resident chunk). -/
def setLocalInChunk (w : World) (cx yOff cz : Int) (x y z : Int) (id : Nat) : World :=
  match w.chunks cx yOff cz with
  | none => w
  | some c => w.insertChunk cx yOff cz (c.setBlockId x y z id)

/-- The trunk and canopy writes of `placeTree` for a given
`treeHeight`. -/
def placeTreeWithHeight (w : World) (x y z : Int) (treeHeight : Nat) : World :=
  let w1 := (List.range treeHeight).foldl
    (fun acc i => acc.setBlock ⟨x, y + i, z⟩ BlockId.WOOD) w
  ((intRangeIncl (-2) 2).flatMap fun dx =>
      (intRangeIncl (-2) 2).flatMap fun dz =>
        (intRangeIncl 0 2).map fun dy => (dx, dz, dy)).foldl
    (fun acc t =>
      if t.1.natAbs + t.2.1.natAbs ≤ 3 then
        let leafY := y + treeHeight - 2 + t.2.2
        if ¬(t.1 = 0 ∧ t.2.1 = 0 ∧ t.2.2 < 2) then
          if acc.getBlock ⟨x + t.1, leafY, z + t.2.1⟩ = BlockId.AIR then
            acc.setBlock ⟨x + t.1, leafY, z + t.2.1⟩ BlockId.GRASS
          else acc
        else acc
      else acc) w1

/-- `placeTree`: `treeHeight = 4 + Math.floor(Math.random() * 3)` — `rand`
is the value drawn from the global, **unseeded** `Math.random()` — then
the trunk and canopy writes through `world.setBlock`. -/
def placeTree (w : World) (x y z : Int) (rand : ℚ) : World :=
  placeTreeWithHeight w x y z (4 + (Rat.floor (rand * 3)).toNat)

/-- The per-column body of `generateChunk`: fill the column, then possibly
place a tree (consuming the next `Math.random()` draw from the stream
`rand`).  The state is the world paired with the count of draws made. -/
def genColumn (noise : NoiseFns) (settings : WorldSettings) (rand : Nat → ℚ)
    (cx yOff cz : Int) (st : World × Nat) (lxz : Nat × Nat) : World × Nat :=
  let worldX := cx * CHUNK_WIDTH + lxz.1
  let worldZ := cz * CHUNK_DEPTH + lxz.2
  let surfaceHeight := getHeightAt noise settings worldX worldZ
  let w1 := (List.range 64).foldl
    (fun acc ly =>
      let worldY := yOff + ly
      setLocalInChunk acc cx yOff cz lxz.1 ly lxz.2
        (columnBlockId noise settings surfaceHeight worldX worldZ worldY))
    st.1
  if surfaceHeight > SEA_LEVEL ∧ 0 < settings.trees then
    let treeChance := noise.treeNoise (worldX * (1 / 10)) (worldZ * (1 / 10))
    if treeChance > 1 - settings.trees * (1 / 10) then
      (placeTree w1 worldX (surfaceHeight + 1) worldZ (rand st.2), st.2 + 1)
    else (w1, st.2)
  else (w1, st.2)

/-- `generateChunk` on the chunk at key `(cx, yOff, cz)` of `w` (the
source receives the chunk object itself; the driver holds it inside the
world's map, see `setLocalInChunk`).  `rand` is the stream of values the
global `Math.random()` produces during this call; the result pairs the
updated world with the number of draws consumed. -/
def generateChunk (noise : NoiseFns) (rand : Nat → ℚ) (w : World)
    (cx yOff cz : Int) : World × Nat :=
  ((List.range 32).flatMap fun lx => (List.range 32).map fun lz => (lx, lz)).foldl
    (genColumn noise w.settings rand cx yOff cz) (w, 0)

end WorldGenerator

/-! ## Basic lemmas about the JavaScript integer operations -/

theorem neg_tmod_eq (a b : Int) : (-a).tmod b = -(a.tmod b) := by
  simp only [Int.tmod_def, Int.neg_tdiv]
  ring

theorem tmod32_lb (x : Int) : -32 < x.tmod 32 := by
  rcases le_or_lt 0 x with h | h
  · have := Int.tmod_nonneg 32 h
    omega
  · have h1 : (-x).tmod 32 < 32 := Int.tmod_lt_of_pos _ (by norm_num)
    have h2 : (-x).tmod 32 = -(x.tmod 32) := neg_tmod_eq x 32
    omega

/-- The inlined `((a % n) + n) % n` of `worldToLocalCoord` is the
Euclidean (always non-negative) remainder. -/
theorem euclidModJS_32 (x : Int) : euclidModJS x 32 = x % 32 := by
  have hb : x.tmod 32 < 32 := Int.tmod_lt_of_pos _ (by norm_num)
  have hl : -32 < x.tmod 32 := tmod32_lb x
  unfold euclidModJS jsRemOp
  rw [Int.tmod_eq_emod (by omega) (by norm_num), Int.tmod_def]
  show (x - 32 * x.tdiv 32 + 32) % 32 = x % 32
  rw [Int.tmod_def] at hb hl
  omega

theorem jsFloorDiv_32 (x : Int) : jsFloorDiv x 32 = x / 32 :=
  Int.fdiv_eq_ediv x (by norm_num)

theorem jsFloorDiv_64 (x : Int) : jsFloorDiv x 64 = x / 64 :=
  Int.fdiv_eq_ediv x (by norm_num)

theorem mem_intRangeAux (x : Int) :
    ∀ (n : Nat) (lo : Int), x ∈ intRangeAux lo n ↔ lo ≤ x ∧ x < lo + n := by
  intro n
  induction n with
  | zero => intro lo; simp [intRangeAux]
  | succ m ih =>
    intro lo
    simp only [intRangeAux, List.mem_cons, ih (lo + 1)]
    constructor
    · rintro (rfl | ⟨h1, h2⟩) <;> omega
    · rintro ⟨h1, h2⟩
      rcases eq_or_lt_of_le h1 with rfl | h3
      · exact Or.inl rfl
      · exact Or.inr ⟨by omega, by omega⟩

theorem mem_intRangeIncl (a b x : Int) : x ∈ intRangeIncl a b ↔ a ≤ x ∧ x ≤ b := by
  rw [intRangeIncl, mem_intRangeAux]
  omega

/-! ## C3: the world → chunk/local coordinate transform -/

/-- C3.  For every integer world position, `World.worldToLocalCoord`
computes `chunkCoord = (⌊x/32⌋, ⌊z/32⌋)` (floor division),
`chunkY = ⌊(y − (−32))/64⌋·64 + (−32)`, and the locals by Euclidean
modulo (`((a % n) + n) % n` over the truncating JavaScript `%`); the local
coordinates always lie in `[0,32) × [0,64) × [0,32)`, mapping
`(chunk, yOffset, local)` back to world coordinates is the exact inverse,
and the three round-trip examples of the specification hold. -/
theorem coord_transform_exact :
    (∀ x y z : Int,
      (World.worldToLocalCoord ⟨x, y, z⟩).chunk = ⟨x / 32, z / 32⟩ ∧
      (World.worldToLocalCoord ⟨x, y, z⟩).yOffset =
        (y - WORLD_MIN_Y) / 64 * 64 + WORLD_MIN_Y ∧
      (World.worldToLocalCoord ⟨x, y, z⟩).localPos =
        ⟨euclidModJS x 32, y - (World.worldToLocalCoord ⟨x, y, z⟩).yOffset,
         euclidModJS z 32⟩ ∧
      (0 ≤ (World.worldToLocalCoord ⟨x, y, z⟩).localPos.x ∧
        (World.worldToLocalCoord ⟨x, y, z⟩).localPos.x < 32) ∧
      (0 ≤ (World.worldToLocalCoord ⟨x, y, z⟩).localPos.y ∧
        (World.worldToLocalCoord ⟨x, y, z⟩).localPos.y < 64) ∧
      (0 ≤ (World.worldToLocalCoord ⟨x, y, z⟩).localPos.z ∧
        (World.worldToLocalCoord ⟨x, y, z⟩).localPos.z < 32) ∧
      (World.worldToLocalCoord ⟨x, y, z⟩).chunk.x * 32 +
        (World.worldToLocalCoord ⟨x, y, z⟩).localPos.x = x ∧
      (World.worldToLocalCoord ⟨x, y, z⟩).yOffset +
        (World.worldToLocalCoord ⟨x, y, z⟩).localPos.y = y ∧
      (World.worldToLocalCoord ⟨x, y, z⟩).chunk.z * 32 +
        (World.worldToLocalCoord ⟨x, y, z⟩).localPos.z = z) ∧
    (World.worldToLocalCoord ⟨31, 0, 0⟩).chunk.x = 0 ∧
    (World.worldToLocalCoord ⟨31, 0, 0⟩).localPos.x = 31 ∧
    (World.worldToLocalCoord ⟨32, 0, 0⟩).chunk.x = 1 ∧
    (World.worldToLocalCoord ⟨32, 0, 0⟩).localPos.x = 0 ∧
    (World.worldToLocalCoord ⟨-1, 0, 0⟩).chunk.x = -1 ∧
    (World.worldToLocalCoord ⟨-1, 0, 0⟩).localPos.x = 31 := by
  refine ⟨fun x y z => ?_, by decide, by decide, by decide, by decide, by decide, by decide⟩
  have hx : euclidModJS x 32 = x % 32 := euclidModJS_32 x
  have hz : euclidModJS z 32 = z % 32 := euclidModJS_32 z
  have hy : jsFloorDiv (y - WORLD_MIN_Y) CHUNK_HEIGHT = (y + 32) / 64 := by
    show jsFloorDiv (y - WORLD_MIN_Y) 64 = (y + 32) / 64
    rw [jsFloorDiv_64]
    norm_num [WORLD_MIN_Y]
  refine ⟨?_, ?_, ?_, ?_, ?_, ?_, ?_, ?_, ?_⟩
  · show (⟨jsFloorDiv x 32, jsFloorDiv z 32⟩ : ChunkCoord) = ⟨x / 32, z / 32⟩
    rw [jsFloorDiv_32, jsFloorDiv_32]
  · show jsFloorDiv (y - WORLD_MIN_Y) 64 * 64 + WORLD_MIN_Y =
      (y - WORLD_MIN_Y) / 64 * 64 + WORLD_MIN_Y
    rw [jsFloorDiv_64]
  · rfl
  · show 0 ≤ euclidModJS x 32 ∧ euclidModJS x 32 < 32
    rw [hx]; omega
  · show 0 ≤ y - World.worldToChunkY y ∧ y - World.worldToChunkY y < 64
    unfold World.worldToChunkY
    rw [hy]
    norm_num [WORLD_MIN_Y, CHUNK_HEIGHT]
    omega
  · show 0 ≤ euclidModJS z 32 ∧ euclidModJS z 32 < 32
    rw [hz]; omega
  · show jsFloorDiv x 32 * 32 + euclidModJS x 32 = x
    rw [jsFloorDiv_32, hx]; omega
  · show World.worldToChunkY y + (y - World.worldToChunkY y) = y
    omega
  · show jsFloorDiv z 32 * 32 + euclidModJS z 32 = z
    rw [jsFloorDiv_32, hz]; omega

/-! ## Chunk index and read/write lemmas -/

theorem getIndex_eq_none {x y z : Int}
    (h : ¬(0 ≤ x ∧ x < 32 ∧ 0 ≤ y ∧ y < 64 ∧ 0 ≤ z ∧ z < 32)) :
    Chunk.getIndex x y z = none := by
  unfold Chunk.getIndex
  rw [if_pos]
  simp only [CHUNK_WIDTH, CHUNK_HEIGHT, CHUNK_DEPTH]
  omega

theorem getIndex_eq_some {x y z : Int}
    (h : 0 ≤ x ∧ x < 32 ∧ 0 ≤ y ∧ y < 64 ∧ 0 ≤ z ∧ z < 32) :
    Chunk.getIndex x y z = some (x + z * 32 + y * 32 * 32).toNat := by
  unfold Chunk.getIndex
  rw [if_neg]
  · rfl
  · simp only [CHUNK_WIDTH, CHUNK_HEIGHT, CHUNK_DEPTH]
    omega

theorem getIndex_lt_size {x y z : Int}
    (h : 0 ≤ x ∧ x < 32 ∧ 0 ≤ y ∧ y < 64 ∧ 0 ≤ z ∧ z < 32) :
    (x + z * 32 + y * 32 * 32).toNat < CHUNK_SIZE := by
  simp only [CHUNK_SIZE]
  omega

theorem readU16_lt (c : Chunk) (i : Nat) : c.readU16 i < 65536 := by
  unfold Chunk.readU16
  split
  · exact Nat.mod_lt _ (by norm_num)
  · norm_num

theorem readU16_writeU16_self (c : Chunk) (i : Nat) (v : Nat) (h : i < c.size) :
    (c.writeU16 i v).readU16 i = v % 65536 := by
  simp only [Chunk.writeU16, Chunk.readU16, if_pos h, if_pos rfl, if_true]
  omega

theorem readU16_writeU16_ne (c : Chunk) (i j : Nat) (v : Nat) (h : j ≠ i) :
    (c.writeU16 i v).readU16 j = c.readU16 j := by
  unfold Chunk.writeU16 Chunk.readU16
  split
  · simp only [if_neg h]
  · rfl

/-! ## C8: out-of-range chunk access is defensive -/

/-- C8.  For every integer local coordinate outside
`[0,32) × [0,64) × [0,32)`, chunk reads return the air sentinel
(`getVoxel`/`getBlockId` return 0, `getMeta` returns 0) and the writes
`setVoxel`, `setBlockId`, `setMeta` return the chunk unchanged — backing
store and dirty flag included.  (The accessors are total functions: the
source's early `return` is the only control flow, nothing throws.) -/
theorem chunk_out_of_range_defensive :
    ∀ (c : Chunk) (x y z : Int) (v m : Nat),
      ¬(0 ≤ x ∧ x < 32 ∧ 0 ≤ y ∧ y < 64 ∧ 0 ≤ z ∧ z < 32) →
      c.getVoxel x y z = 0 ∧ c.getBlockId x y z = 0 ∧ c.getMeta x y z = 0 ∧
      c.setVoxel x y z v = c ∧ c.setBlockId x y z v = c ∧ c.setMeta x y z m = c := by
  intro c x y z v m h
  have hn : Chunk.getIndex x y z = none := getIndex_eq_none h
  refine ⟨?_, ?_, ?_, ?_, ?_, ?_⟩ <;>
    simp [Chunk.getVoxel, Chunk.getBlockId, Chunk.getMeta, Chunk.setVoxel,
      Chunk.setBlockId, Chunk.setMeta, hn, BlockId.AIR]

/-- Witness for C8 at the concrete out-of-range coordinate `(-1, 0, 0)`. -/
theorem chunk_out_of_range_defensive_witness :
    (Chunk.new ⟨0, 0⟩ 0).getVoxel (-1) 0 0 = 0 ∧
    (Chunk.new ⟨0, 0⟩ 0).getBlockId (-1) 0 0 = 0 ∧
    (Chunk.new ⟨0, 0⟩ 0).getMeta (-1) 0 0 = 0 ∧
    (Chunk.new ⟨0, 0⟩ 0).setVoxel (-1) 0 0 7 = Chunk.new ⟨0, 0⟩ 0 ∧
    (Chunk.new ⟨0, 0⟩ 0).setBlockId (-1) 0 0 7 = Chunk.new ⟨0, 0⟩ 0 ∧
    (Chunk.new ⟨0, 0⟩ 0).setMeta (-1) 0 0 3 = Chunk.new ⟨0, 0⟩ 0 :=
  chunk_out_of_range_defensive (Chunk.new ⟨0, 0⟩ 0) (-1) 0 0 7 3 (by decide)

/-! ## C2: deserialize performs no length validation -/

/-- C2 (divergence witnessed).  Deserializing a 16-byte buffer — the
wrong length, `W·H·D·2 = 131072` bytes is expected — returns
`Except.ok`: no recoverable load error reaches the caller, and the
wrong-length buffer **is** silently installed as the chunk's backing
store (8 words, marked dirty).  Reads stay inside the installed store
(the typed array itself is memory-safe): a populated cell of the short
store is readable, and an in-range local coordinate beyond the installed
length reads as air. -/
theorem deserialize_wrong_length_silently_installed :
    (16 : Nat) ≠ 2 * CHUNK_SIZE ∧
    (Chunk.deserialize (Chunk.new ⟨0, 0⟩ 0) ⟨16, fun _ => 7⟩).toOption.isSome = true ∧
    (Chunk.deserialize (Chunk.new ⟨0, 0⟩ 0) ⟨16, fun _ => 7⟩).toOption.map Chunk.size =
      some 8 ∧
    (Chunk.deserialize (Chunk.new ⟨0, 0⟩ 0) ⟨16, fun _ => 7⟩).toOption.map Chunk.isDirty =
      some true ∧
    (Chunk.deserialize (Chunk.new ⟨0, 0⟩ 0) ⟨16, fun _ => 7⟩).toOption.map
      (fun d => d.getBlockId 1 0 0) = some 775 ∧
    (Chunk.deserialize (Chunk.new ⟨0, 0⟩ 0) ⟨16, fun _ => 7⟩).toOption.map
      (fun d => d.getBlockId 0 1 0) = some 0 := by
  refine ⟨by decide, ?_, ?_, ?_, ?_, ?_⟩ <;> decide

/-! ## C7: serialize/deserialize round trip -/

theorem serialize_byteAt_even (c : Chunk) (i : Nat) (h : i < c.size) :
    (c.serialize).byteAt (2 * i) = c.readU16 i % 256 := by
  unfold Chunk.serialize
  simp only
  rw [if_pos (by omega : 2 * i < 2 * c.size), if_pos (by omega : 2 * i % 2 = 0)]
  have h2 : 2 * i / 2 = i := by omega
  rw [h2]

theorem serialize_byteAt_odd (c : Chunk) (i : Nat) (h : i < c.size) :
    (c.serialize).byteAt (2 * i + 1) = c.readU16 i / 256 := by
  unfold Chunk.serialize
  simp only
  rw [if_pos (by omega : 2 * i + 1 < 2 * c.size), if_neg (by omega : ¬(2 * i + 1) % 2 = 0)]
  have h2 : (2 * i + 1) / 2 = i := by omega
  rw [h2]

theorem serialize_byteAt_past (c : Chunk) (j : Nat) (h : 2 * c.size ≤ j) :
    (c.serialize).byteAt j = 0 := by
  unfold Chunk.serialize
  simp only
  rw [if_neg (by omega)]

/-- The two bytes at word index `i` of a serialized chunk reassemble to
the 16-bit word of cell `i` (zero beyond the store's length). -/
theorem serialize_word (c : Chunk) (i : Nat) :
    (c.serialize).byteAt (2 * i) + 256 * (c.serialize).byteAt (2 * i + 1) =
      c.readU16 i := by
  rcases lt_or_le i c.size with h | h
  · rw [serialize_byteAt_even c i h, serialize_byteAt_odd c i h]
    have := readU16_lt c i
    omega
  · rw [serialize_byteAt_past c _ (by omega), serialize_byteAt_past c _ (by omega)]
    unfold Chunk.readU16
    rw [if_neg (by omega)]

/-- Deserializing a serialized chunk succeeds and reproduces every 16-bit
word of the source store. -/
theorem deserialize_serialize (c c₂ : Chunk) :
    ∃ d, Chunk.deserialize c₂ (Chunk.serialize c) = Except.ok d ∧
      d.size = c.size ∧ d.isDirty = true ∧ ∀ i, d.readU16 i = c.readU16 i := by
  have hlen : (Chunk.serialize c).byteLength = 2 * c.size := rfl
  have hcond : ¬(Chunk.serialize c).byteLength % 2 ≠ 0 := by rw [hlen]; omega
  refine ⟨_, by unfold Chunk.deserialize; rw [if_neg hcond], ?_, rfl, ?_⟩
  · show (Chunk.serialize c).byteLength / 2 = c.size
    rw [hlen]; omega
  · intro i
    show Chunk.readU16 _ i = c.readU16 i
    unfold Chunk.readU16
    simp only
    have hsz : (Chunk.serialize c).byteLength / 2 = c.size := by rw [hlen]; omega
    rw [hsz]
    rcases lt_or_le i c.size with h | h
    · rw [if_pos h, if_pos h, if_pos h]
      rw [serialize_byteAt_even c i h, serialize_byteAt_odd c i h]
      have := readU16_lt c i
      unfold Chunk.readU16
      rw [if_pos h]
      omega
    · rw [if_neg (by omega), if_neg (by omega)]

theorem getBlockId_congr_readU16 {c d : Chunk}
    (h : ∀ i, d.readU16 i = c.readU16 i) (x y z : Int) :
    d.getBlockId x y z = c.getBlockId x y z := by
  unfold Chunk.getBlockId Chunk.getVoxel
  cases Chunk.getIndex x y z <;> simp [h]

theorem getMeta_congr_readU16 {c d : Chunk}
    (h : ∀ i, d.readU16 i = c.readU16 i) (x y z : Int) :
    d.getMeta x y z = c.getMeta x y z := by
  unfold Chunk.getMeta
  cases Chunk.getIndex x y z <;> simp [h]

/-- C7.  `serialize` emits exactly `32·64·32·2 = 131072` bytes, one
16-bit word per cell in index order `x + z·32 + y·32·32` (the two bytes
at a cell's word index reassemble to `getBlockId + 1024·getMeta`), and
for every pair of chunks, deserializing one chunk's serialized buffer
into another reproduces every `(getBlockId, getMeta)` pair at every local
coordinate and leaves the destination dirty regardless of its prior
state. -/
theorem serialize_roundtrip :
    (∀ c : Chunk, c.size = CHUNK_SIZE → (Chunk.serialize c).byteLength = 131072) ∧
    (∀ (c : Chunk) (x y z : Nat), x < 32 → y < 64 → z < 32 →
      (Chunk.serialize c).byteAt (2 * (x + z * 32 + y * 32 * 32)) +
        256 * (Chunk.serialize c).byteAt (2 * (x + z * 32 + y * 32 * 32) + 1) =
        c.getBlockId x y z + 1024 * c.getMeta x y z) ∧
    (∀ c c₂ : Chunk, ∃ d, Chunk.deserialize c₂ (Chunk.serialize c) = Except.ok d ∧
      (∀ x y z : Int, d.getBlockId x y z = c.getBlockId x y z ∧
        d.getMeta x y z = c.getMeta x y z) ∧
      d.isDirty = true) := by
  refine ⟨?_, ?_, ?_⟩
  · intro c h
    show 2 * c.size = 131072
    rw [h]
    rfl
  · intro c x y z hx hy hz
    rw [serialize_word c (x + z * 32 + y * 32 * 32)]
    have hidx : Chunk.getIndex (x : Int) (y : Int) (z : Int) =
        some (x + z * 32 + y * 32 * 32) := by
      rw [getIndex_eq_some (by omega)]
      congr 1
    unfold Chunk.getBlockId Chunk.getVoxel Chunk.getMeta
    rw [hidx]
    simp only
    have := readU16_lt c (x + z * 32 + y * 32 * 32)
    omega
  · intro c c₂
    obtain ⟨d, hok, _, hdirty, hread⟩ := deserialize_serialize c c₂
    exact ⟨d, hok, fun x y z =>
      ⟨getBlockId_congr_readU16 hread x y z, getMeta_congr_readU16 hread x y z⟩, hdirty⟩

/-- Witness for C7 on a concrete chunk with one non-trivial cell. -/
theorem serialize_roundtrip_witness :
    (Chunk.serialize ((Chunk.new ⟨0, 0⟩ 0).setBlockId 1 2 3 5)).byteLength = 131072 ∧
    (Chunk.serialize ((Chunk.new ⟨0, 0⟩ 0).setBlockId 1 2 3 5)).byteAt
        (2 * (1 + 3 * 32 + 2 * 32 * 32)) +
      256 * (Chunk.serialize ((Chunk.new ⟨0, 0⟩ 0).setBlockId 1 2 3 5)).byteAt
        (2 * (1 + 3 * 32 + 2 * 32 * 32) + 1) =
      ((Chunk.new ⟨0, 0⟩ 0).setBlockId 1 2 3 5).getBlockId 1 2 3 +
        1024 * ((Chunk.new ⟨0, 0⟩ 0).setBlockId 1 2 3 5).getMeta 1 2 3 :=
  ⟨serialize_roundtrip.1 _ (by decide),
   serialize_roundtrip.2.1 ((Chunk.new ⟨0, 0⟩ 0).setBlockId 1 2 3 5) 1 2 3
     (by decide) (by decide) (by decide)⟩

/-! ## World chunk-map lemmas -/

/-- Every chunk of the map has the constructor's backing-store length
(`deserialize` with a wrong-length buffer is the only operation that can
break this). -/
def World.WellFormed (w : World) : Prop :=
  ∀ cx yOff cz c, w.chunks cx yOff cz = some c → c.size = CHUNK_SIZE

theorem emptyWorld_wellFormed : emptyWorld.WellFormed := by
  intro cx yOff cz c h
  simp [emptyWorld] at h

theorem getChunk_insertChunk_self (w : World) (cx yOff cz : Int) (ch : Chunk) :
    (w.insertChunk cx yOff cz ch).getChunk cx yOff cz = some ch := by
  simp [World.insertChunk, World.getChunk]

theorem getChunk_insertChunk_ne (w : World) (cx yOff cz : Int) (ch : Chunk)
    {qx qy qz : Int} (h : ¬(qx = cx ∧ qy = yOff ∧ qz = cz)) :
    (w.insertChunk cx yOff cz ch).getChunk qx qy qz = w.getChunk qx qy qz := by
  simp only [World.insertChunk, World.getChunk]
  rw [if_neg h]

theorem getChunk_markDirtyAt_ne (w : World) (a1 a2 a3 : Int)
    {qx qy qz : Int} (h : ¬(qx = a1 ∧ qy = a2 ∧ qz = a3)) :
    (w.markDirtyAt a1 a2 a3).getChunk qx qy qz = w.getChunk qx qy qz := by
  unfold World.markDirtyAt
  cases hw : w.chunks a1 a2 a3 with
  | none => rfl
  | some c => exact getChunk_insertChunk_ne w a1 a2 a3 c.markDirty h

theorem getChunk_markDirtyAt_self (w : World) (a1 a2 a3 : Int) :
    (w.markDirtyAt a1 a2 a3).getChunk a1 a2 a3 =
      (w.getChunk a1 a2 a3).map Chunk.markDirty := by
  unfold World.markDirtyAt
  cases hw : w.chunks a1 a2 a3 with
  | none =>
    have hg : w.getChunk a1 a2 a3 = none := hw
    rw [hg]
    rfl
  | some c =>
    have hg : w.getChunk a1 a2 a3 = some c := hw
    rw [getChunk_insertChunk_self, hg]
    rfl

theorem getChunk_condMark_ne (b : Prop) [Decidable b] (w : World) (a1 a2 a3 : Int)
    {qx qy qz : Int} (h : ¬(qx = a1 ∧ qy = a2 ∧ qz = a3)) :
    (if b then w.markDirtyAt a1 a2 a3 else w).getChunk qx qy qz =
      w.getChunk qx qy qz := by
  split
  · exact getChunk_markDirtyAt_ne w a1 a2 a3 h
  · rfl

theorem getChunk_condMark_self (b : Prop) [Decidable b] (w : World) (a1 a2 a3 : Int) :
    (if b then w.markDirtyAt a1 a2 a3 else w).getChunk a1 a2 a3 =
      (w.getChunk a1 a2 a3).map (fun c => if b then c.markDirty else c) := by
  split
  · rw [getChunk_markDirtyAt_self]
  · cases w.getChunk a1 a2 a3 with
    | none => rfl
    | some c => rfl

theorem getOrCreateChunk_snd_getChunk_self (w : World) (cx yOff cz : Int) :
    ((w.getOrCreateChunk cx yOff cz).2).getChunk cx yOff cz =
      some (w.getOrCreateChunk cx yOff cz).1 := by
  unfold World.getOrCreateChunk
  cases hw : w.chunks cx yOff cz with
  | none => exact getChunk_insertChunk_self _ _ _ _ _
  | some c => exact hw

theorem getOrCreateChunk_snd_getChunk_ne (w : World) (cx yOff cz : Int)
    {qx qy qz : Int} (h : ¬(qx = cx ∧ qy = yOff ∧ qz = cz)) :
    ((w.getOrCreateChunk cx yOff cz).2).getChunk qx qy qz = w.getChunk qx qy qz := by
  unfold World.getOrCreateChunk
  cases hw : w.chunks cx yOff cz with
  | none => exact getChunk_insertChunk_ne _ _ _ _ _ h
  | some c => rfl

theorem getOrCreateChunk_fst_size (w : World) (cx yOff cz : Int)
    (hw : w.WellFormed) : (w.getOrCreateChunk cx yOff cz).1.size = CHUNK_SIZE := by
  unfold World.getOrCreateChunk
  cases h : w.chunks cx yOff cz with
  | none => rfl
  | some c => exact hw cx yOff cz c h

/-! ## Read-after-write lemmas for chunks -/

theorem readU16_markDirty (c : Chunk) (i : Nat) : c.markDirty.readU16 i = c.readU16 i := rfl

theorem getIndex_inj {x y z x' y' z' : Int} {i : Nat}
    (h1 : Chunk.getIndex x y z = some i) (h2 : Chunk.getIndex x' y' z' = some i) :
    x = x' ∧ y = y' ∧ z = z' := by
  unfold Chunk.getIndex at h1 h2
  simp only [CHUNK_WIDTH, CHUNK_HEIGHT, CHUNK_DEPTH] at h1 h2
  split at h1
  · exact absurd h1 (by simp)
  · split at h2
    · exact absurd h2 (by simp)
    · next hg2 =>
      next hg1 =>
      rw [Option.some_inj] at h1 h2
      rw [← h2] at h1
      constructor
      · omega
      constructor
      · omega
      · omega

theorem getBlockId_setBlockId_self (c : Chunk) (x y z : Int) (id : Nat)
    (hr : 0 ≤ x ∧ x < 32 ∧ 0 ≤ y ∧ y < 64 ∧ 0 ≤ z ∧ z < 32)
    (hs : c.size = CHUNK_SIZE) :
    (c.setBlockId x y z id).getBlockId x y z = id % 1024 := by
  have hidx := getIndex_eq_some hr
  have hi : (x + z * 32 + y * 32 * 32).toNat < c.size := by
    rw [hs]; exact getIndex_lt_size hr
  unfold Chunk.setBlockId Chunk.setVoxel
  rw [hidx]
  unfold Chunk.getBlockId Chunk.getVoxel
  rw [hidx]
  simp only [readU16_markDirty, readU16_writeU16_self _ _ _ hi]
  omega

theorem getMeta_setBlockId_self (c : Chunk) (x y z : Int) (id : Nat)
    (hr : 0 ≤ x ∧ x < 32 ∧ 0 ≤ y ∧ y < 64 ∧ 0 ≤ z ∧ z < 32)
    (hs : c.size = CHUNK_SIZE) :
    (c.setBlockId x y z id).getMeta x y z = c.getMeta x y z := by
  have hidx := getIndex_eq_some hr
  have hi : (x + z * 32 + y * 32 * 32).toNat < c.size := by
    rw [hs]; exact getIndex_lt_size hr
  unfold Chunk.setBlockId Chunk.setVoxel
  rw [hidx]
  unfold Chunk.getMeta
  rw [hidx]
  simp only [readU16_markDirty, readU16_writeU16_self _ _ _ hi]
  unfold Chunk.readU16
  rw [if_pos hi]
  have hv : c.voxels (x + z * 32 + y * 32 * 32).toNat % 65536 < 65536 :=
    Nat.mod_lt _ (by norm_num)
  omega

theorem getBlockId_setBlockId_ne (c : Chunk) (x y z a b d : Int) (id : Nat)
    (h : ¬(a = x ∧ b = y ∧ d = z)) :
    (c.setBlockId x y z id).getBlockId a b d = c.getBlockId a b d := by
  unfold Chunk.setBlockId Chunk.setVoxel
  cases hw : Chunk.getIndex x y z with
  | none => rfl
  | some i =>
    unfold Chunk.getBlockId Chunk.getVoxel
    cases hr : Chunk.getIndex a b d with
    | none => rfl
    | some j =>
      simp only [readU16_markDirty]
      have hne : j ≠ i := by
        intro he
        exact h ⟨(getIndex_inj hr (he ▸ hw)).1, (getIndex_inj hr (he ▸ hw)).2.1,
          (getIndex_inj hr (he ▸ hw)).2.2⟩
      rw [readU16_writeU16_ne _ _ _ _ hne]

theorem getBlockId_new (coord : ChunkCoord) (yOff : Int) (x y z : Int) :
    (Chunk.new coord yOff).getBlockId x y z = 0 := by
  unfold Chunk.getBlockId Chunk.getVoxel
  cases Chunk.getIndex x y z with
  | none => rfl
  | some i =>
    unfold Chunk.readU16 Chunk.new
    simp

/-! ## setBlock characterization -/

/-- The chunk-map keys `setBlock p` can touch: the written chunk's key and
its six face-adjacent neighbor keys. -/
def World.setBlockKeys (p : Vec3) : List (Int × Int × Int) :=
  [((World.worldToLocalCoord p).chunk.x, (World.worldToLocalCoord p).yOffset,
      (World.worldToLocalCoord p).chunk.z),
   ((World.worldToLocalCoord p).chunk.x - 1, (World.worldToLocalCoord p).yOffset,
      (World.worldToLocalCoord p).chunk.z),
   ((World.worldToLocalCoord p).chunk.x + 1, (World.worldToLocalCoord p).yOffset,
      (World.worldToLocalCoord p).chunk.z),
   ((World.worldToLocalCoord p).chunk.x, (World.worldToLocalCoord p).yOffset,
      (World.worldToLocalCoord p).chunk.z - 1),
   ((World.worldToLocalCoord p).chunk.x, (World.worldToLocalCoord p).yOffset,
      (World.worldToLocalCoord p).chunk.z + 1),
   ((World.worldToLocalCoord p).chunk.x,
      (World.worldToLocalCoord p).yOffset - CHUNK_HEIGHT,
      (World.worldToLocalCoord p).chunk.z),
   ((World.worldToLocalCoord p).chunk.x,
      (World.worldToLocalCoord p).yOffset + CHUNK_HEIGHT,
      (World.worldToLocalCoord p).chunk.z)]

theorem getChunk_markDirtyIf_ne (w : World) (b : Bool) (a1 a2 a3 : Int)
    {qx qy qz : Int} (h : ¬(qx = a1 ∧ qy = a2 ∧ qz = a3)) :
    (w.markDirtyIf b a1 a2 a3).getChunk qx qy qz = w.getChunk qx qy qz := by
  unfold World.markDirtyIf
  split
  · exact getChunk_markDirtyAt_ne w a1 a2 a3 h
  · rfl

theorem getChunk_markDirtyIf_self (w : World) (b : Bool) (a1 a2 a3 : Int) :
    (w.markDirtyIf b a1 a2 a3).getChunk a1 a2 a3 =
      (w.getChunk a1 a2 a3).map (fun c => if b then c.markDirty else c) := by
  unfold World.markDirtyIf
  split
  · rw [getChunk_markDirtyAt_self]
  · cases w.getChunk a1 a2 a3 with
    | none => rfl
    | some c => rfl

theorem getChunk_setBlock_center (w : World) (p : Vec3) (id : Nat) :
    (w.setBlock p id).getChunk (World.worldToLocalCoord p).chunk.x
      (World.worldToLocalCoord p).yOffset (World.worldToLocalCoord p).chunk.z =
    some ((w.getOrCreateChunk (World.worldToLocalCoord p).chunk.x
        (World.worldToLocalCoord p).yOffset (World.worldToLocalCoord p).chunk.z).1.setBlockId
      (World.worldToLocalCoord p).localPos.x (World.worldToLocalCoord p).localPos.y
      (World.worldToLocalCoord p).localPos.z id) := by
  simp only [World.setBlock]
  refine (getChunk_markDirtyIf_ne _ _ _ _ _ ?_).trans ?_
  · rintro ⟨h1, h2, h3⟩; simp only [CHUNK_HEIGHT] at h2; omega
  refine (getChunk_markDirtyIf_ne _ _ _ _ _ ?_).trans ?_
  · rintro ⟨h1, h2, h3⟩; simp only [CHUNK_HEIGHT] at h2; omega
  refine (getChunk_markDirtyIf_ne _ _ _ _ _ ?_).trans ?_
  · rintro ⟨h1, h2, h3⟩; omega
  refine (getChunk_markDirtyIf_ne _ _ _ _ _ ?_).trans ?_
  · rintro ⟨h1, h2, h3⟩; omega
  refine (getChunk_markDirtyIf_ne _ _ _ _ _ ?_).trans ?_
  · rintro ⟨h1, h2, h3⟩; omega
  refine (getChunk_markDirtyIf_ne _ _ _ _ _ ?_).trans ?_
  · rintro ⟨h1, h2, h3⟩; omega
  exact getChunk_insertChunk_self _ _ _ _ _

theorem getChunk_setBlock_xneg (w : World) (p : Vec3) (id : Nat) :
    (w.setBlock p id).getChunk ((World.worldToLocalCoord p).chunk.x - 1)
      (World.worldToLocalCoord p).yOffset (World.worldToLocalCoord p).chunk.z =
    (w.getChunk ((World.worldToLocalCoord p).chunk.x - 1)
      (World.worldToLocalCoord p).yOffset (World.worldToLocalCoord p).chunk.z).map
      (fun c => if (World.worldToLocalCoord p).localPos.x == 0 then c.markDirty else c) := by
  simp only [World.setBlock]
  refine (getChunk_markDirtyIf_ne _ _ _ _ _ ?_).trans ?_
  · rintro ⟨h1, h2, h3⟩; omega
  refine (getChunk_markDirtyIf_ne _ _ _ _ _ ?_).trans ?_
  · rintro ⟨h1, h2, h3⟩; omega
  refine (getChunk_markDirtyIf_ne _ _ _ _ _ ?_).trans ?_
  · rintro ⟨h1, h2, h3⟩; omega
  refine (getChunk_markDirtyIf_ne _ _ _ _ _ ?_).trans ?_
  · rintro ⟨h1, h2, h3⟩; omega
  refine (getChunk_markDirtyIf_ne _ _ _ _ _ ?_).trans ?_
  · rintro ⟨h1, h2, h3⟩; omega
  refine (getChunk_markDirtyIf_self _ _ _ _ _).trans (congrArg (Option.map _) ?_)
  refine (getChunk_insertChunk_ne _ _ _ _ _ ?_).trans ?_
  · rintro ⟨h1, h2, h3⟩; omega
  exact getOrCreateChunk_snd_getChunk_ne _ _ _ _ (by rintro ⟨h1, h2, h3⟩; omega)

theorem getChunk_setBlock_xpos (w : World) (p : Vec3) (id : Nat) :
    (w.setBlock p id).getChunk ((World.worldToLocalCoord p).chunk.x + 1)
      (World.worldToLocalCoord p).yOffset (World.worldToLocalCoord p).chunk.z =
    (w.getChunk ((World.worldToLocalCoord p).chunk.x + 1)
      (World.worldToLocalCoord p).yOffset (World.worldToLocalCoord p).chunk.z).map
      (fun c => if (World.worldToLocalCoord p).localPos.x == CHUNK_WIDTH - 1 then
        c.markDirty else c) := by
  simp only [World.setBlock]
  refine (getChunk_markDirtyIf_ne _ _ _ _ _ ?_).trans ?_
  · rintro ⟨h1, h2, h3⟩; omega
  refine (getChunk_markDirtyIf_ne _ _ _ _ _ ?_).trans ?_
  · rintro ⟨h1, h2, h3⟩; omega
  refine (getChunk_markDirtyIf_ne _ _ _ _ _ ?_).trans ?_
  · rintro ⟨h1, h2, h3⟩; omega
  refine (getChunk_markDirtyIf_ne _ _ _ _ _ ?_).trans ?_
  · rintro ⟨h1, h2, h3⟩; omega
  refine (getChunk_markDirtyIf_self _ _ _ _ _).trans (congrArg (Option.map _) ?_)
  refine (getChunk_markDirtyIf_ne _ _ _ _ _ ?_).trans ?_
  · rintro ⟨h1, h2, h3⟩; omega
  refine (getChunk_insertChunk_ne _ _ _ _ _ ?_).trans ?_
  · rintro ⟨h1, h2, h3⟩; omega
  exact getOrCreateChunk_snd_getChunk_ne _ _ _ _ (by rintro ⟨h1, h2, h3⟩; omega)

theorem getChunk_setBlock_zneg (w : World) (p : Vec3) (id : Nat) :
    (w.setBlock p id).getChunk (World.worldToLocalCoord p).chunk.x
      (World.worldToLocalCoord p).yOffset ((World.worldToLocalCoord p).chunk.z - 1) =
    (w.getChunk (World.worldToLocalCoord p).chunk.x
      (World.worldToLocalCoord p).yOffset ((World.worldToLocalCoord p).chunk.z - 1)).map
      (fun c => if (World.worldToLocalCoord p).localPos.z == 0 then c.markDirty else c) := by
  simp only [World.setBlock]
  refine (getChunk_markDirtyIf_ne _ _ _ _ _ ?_).trans ?_
  · rintro ⟨h1, h2, h3⟩; simp only [CHUNK_HEIGHT] at h2; omega
  refine (getChunk_markDirtyIf_ne _ _ _ _ _ ?_).trans ?_
  · rintro ⟨h1, h2, h3⟩; simp only [CHUNK_HEIGHT] at h2; omega
  refine (getChunk_markDirtyIf_ne _ _ _ _ _ ?_).trans ?_
  · rintro ⟨h1, h2, h3⟩; omega
  refine (getChunk_markDirtyIf_self _ _ _ _ _).trans (congrArg (Option.map _) ?_)
  refine (getChunk_markDirtyIf_ne _ _ _ _ _ ?_).trans ?_
  · rintro ⟨h1, h2, h3⟩; omega
  refine (getChunk_markDirtyIf_ne _ _ _ _ _ ?_).trans ?_
  · rintro ⟨h1, h2, h3⟩; omega
  refine (getChunk_insertChunk_ne _ _ _ _ _ ?_).trans ?_
  · rintro ⟨h1, h2, h3⟩; omega
  exact getOrCreateChunk_snd_getChunk_ne _ _ _ _ (by rintro ⟨h1, h2, h3⟩; omega)

theorem getChunk_setBlock_zpos (w : World) (p : Vec3) (id : Nat) :
    (w.setBlock p id).getChunk (World.worldToLocalCoord p).chunk.x
      (World.worldToLocalCoord p).yOffset ((World.worldToLocalCoord p).chunk.z + 1) =
    (w.getChunk (World.worldToLocalCoord p).chunk.x
      (World.worldToLocalCoord p).yOffset ((World.worldToLocalCoord p).chunk.z + 1)).map
      (fun c => if (World.worldToLocalCoord p).localPos.z == CHUNK_DEPTH - 1 then
        c.markDirty else c) := by
  simp only [World.setBlock]
  refine (getChunk_markDirtyIf_ne _ _ _ _ _ ?_).trans ?_
  · rintro ⟨h1, h2, h3⟩; simp only [CHUNK_HEIGHT] at h2; omega
  refine (getChunk_markDirtyIf_ne _ _ _ _ _ ?_).trans ?_
  · rintro ⟨h1, h2, h3⟩; simp only [CHUNK_HEIGHT] at h2; omega
  refine (getChunk_markDirtyIf_self _ _ _ _ _).trans (congrArg (Option.map _) ?_)
  refine (getChunk_markDirtyIf_ne _ _ _ _ _ ?_).trans ?_
  · rintro ⟨h1, h2, h3⟩; omega
  refine (getChunk_markDirtyIf_ne _ _ _ _ _ ?_).trans ?_
  · rintro ⟨h1, h2, h3⟩; omega
  refine (getChunk_markDirtyIf_ne _ _ _ _ _ ?_).trans ?_
  · rintro ⟨h1, h2, h3⟩; omega
  refine (getChunk_insertChunk_ne _ _ _ _ _ ?_).trans ?_
  · rintro ⟨h1, h2, h3⟩; omega
  exact getOrCreateChunk_snd_getChunk_ne _ _ _ _ (by rintro ⟨h1, h2, h3⟩; omega)

theorem getChunk_setBlock_yneg (w : World) (p : Vec3) (id : Nat) :
    (w.setBlock p id).getChunk (World.worldToLocalCoord p).chunk.x
      ((World.worldToLocalCoord p).yOffset - CHUNK_HEIGHT)
      (World.worldToLocalCoord p).chunk.z =
    (w.getChunk (World.worldToLocalCoord p).chunk.x
      ((World.worldToLocalCoord p).yOffset - CHUNK_HEIGHT)
      (World.worldToLocalCoord p).chunk.z).map
      (fun c => if (World.worldToLocalCoord p).localPos.y == 0 then c.markDirty else c) := by
  simp only [World.setBlock]
  refine (getChunk_markDirtyIf_ne _ _ _ _ _ ?_).trans ?_
  · rintro ⟨h1, h2, h3⟩; simp only [CHUNK_HEIGHT] at h2; omega
  refine (getChunk_markDirtyIf_self _ _ _ _ _).trans (congrArg (Option.map _) ?_)
  refine (getChunk_markDirtyIf_ne _ _ _ _ _ ?_).trans ?_
  · rintro ⟨h1, h2, h3⟩; omega
  refine (getChunk_markDirtyIf_ne _ _ _ _ _ ?_).trans ?_
  · rintro ⟨h1, h2, h3⟩; omega
  refine (getChunk_markDirtyIf_ne _ _ _ _ _ ?_).trans ?_
  · rintro ⟨h1, h2, h3⟩; omega
  refine (getChunk_markDirtyIf_ne _ _ _ _ _ ?_).trans ?_
  · rintro ⟨h1, h2, h3⟩; omega
  refine (getChunk_insertChunk_ne _ _ _ _ _ ?_).trans ?_
  · rintro ⟨h1, h2, h3⟩; simp only [CHUNK_HEIGHT] at h2; omega
  refine getOrCreateChunk_snd_getChunk_ne _ _ _ _ ?_
  · rintro ⟨h1, h2, h3⟩; simp only [CHUNK_HEIGHT] at h2; omega

theorem getChunk_setBlock_ypos (w : World) (p : Vec3) (id : Nat) :
    (w.setBlock p id).getChunk (World.worldToLocalCoord p).chunk.x
      ((World.worldToLocalCoord p).yOffset + CHUNK_HEIGHT)
      (World.worldToLocalCoord p).chunk.z =
    (w.getChunk (World.worldToLocalCoord p).chunk.x
      ((World.worldToLocalCoord p).yOffset + CHUNK_HEIGHT)
      (World.worldToLocalCoord p).chunk.z).map
      (fun c => if (World.worldToLocalCoord p).localPos.y == CHUNK_HEIGHT - 1 then
        c.markDirty else c) := by
  simp only [World.setBlock]
  refine (getChunk_markDirtyIf_self _ _ _ _ _).trans (congrArg (Option.map _) ?_)
  refine (getChunk_markDirtyIf_ne _ _ _ _ _ ?_).trans ?_
  · rintro ⟨h1, h2, h3⟩; simp only [CHUNK_HEIGHT] at h2; omega
  refine (getChunk_markDirtyIf_ne _ _ _ _ _ ?_).trans ?_
  · rintro ⟨h1, h2, h3⟩; omega
  refine (getChunk_markDirtyIf_ne _ _ _ _ _ ?_).trans ?_
  · rintro ⟨h1, h2, h3⟩; omega
  refine (getChunk_markDirtyIf_ne _ _ _ _ _ ?_).trans ?_
  · rintro ⟨h1, h2, h3⟩; omega
  refine (getChunk_markDirtyIf_ne _ _ _ _ _ ?_).trans ?_
  · rintro ⟨h1, h2, h3⟩; omega
  refine (getChunk_insertChunk_ne _ _ _ _ _ ?_).trans ?_
  · rintro ⟨h1, h2, h3⟩; simp only [CHUNK_HEIGHT] at h2; omega
  refine getOrCreateChunk_snd_getChunk_ne _ _ _ _ ?_
  · rintro ⟨h1, h2, h3⟩; simp only [CHUNK_HEIGHT] at h2; omega

theorem getChunk_setBlock_other (w : World) (p : Vec3) (id : Nat)
    {qx qy qz : Int} (h : (qx, qy, qz) ∉ World.setBlockKeys p) :
    (w.setBlock p id).getChunk qx qy qz = w.getChunk qx qy qz := by
  simp only [World.setBlockKeys, List.mem_cons, List.not_mem_nil, or_false,
    Prod.mk.injEq, not_or] at h
  obtain ⟨h1, h2, h3, h4, h5, h6, h7⟩ := h
  simp only [World.setBlock]
  refine (getChunk_markDirtyIf_ne _ _ _ _ _ ?_).trans ?_
  · rintro ⟨a1, a2, a3⟩; exact h7 ⟨a1, a2, a3⟩
  refine (getChunk_markDirtyIf_ne _ _ _ _ _ ?_).trans ?_
  · rintro ⟨a1, a2, a3⟩; exact h6 ⟨a1, a2, a3⟩
  refine (getChunk_markDirtyIf_ne _ _ _ _ _ ?_).trans ?_
  · rintro ⟨a1, a2, a3⟩; exact h5 ⟨a1, a2, a3⟩
  refine (getChunk_markDirtyIf_ne _ _ _ _ _ ?_).trans ?_
  · rintro ⟨a1, a2, a3⟩; exact h4 ⟨a1, a2, a3⟩
  refine (getChunk_markDirtyIf_ne _ _ _ _ _ ?_).trans ?_
  · rintro ⟨a1, a2, a3⟩; exact h3 ⟨a1, a2, a3⟩
  refine (getChunk_markDirtyIf_ne _ _ _ _ _ ?_).trans ?_
  · rintro ⟨a1, a2, a3⟩; exact h2 ⟨a1, a2, a3⟩
  refine (getChunk_insertChunk_ne _ _ _ _ _ ?_).trans ?_
  · rintro ⟨a1, a2, a3⟩; exact h1 ⟨a1, a2, a3⟩
  refine getOrCreateChunk_snd_getChunk_ne _ _ _ _ ?_
  · rintro ⟨a1, a2, a3⟩; exact h1 ⟨a1, a2, a3⟩

/-! ## C4: setBlock/getBlock round trip -/

theorem localPos_range (p : Vec3) :
    0 ≤ (World.worldToLocalCoord p).localPos.x ∧
    (World.worldToLocalCoord p).localPos.x < 32 ∧
    0 ≤ (World.worldToLocalCoord p).localPos.y ∧
    (World.worldToLocalCoord p).localPos.y < 64 ∧
    0 ≤ (World.worldToLocalCoord p).localPos.z ∧
    (World.worldToLocalCoord p).localPos.z < 32 := by
  have hx := euclidModJS_32 p.x
  have hz := euclidModJS_32 p.z
  refine ⟨?_, ?_, ?_, ?_, ?_, ?_⟩
  · show 0 ≤ euclidModJS p.x 32
    rw [hx]; omega
  · show euclidModJS p.x 32 < 32
    rw [hx]; omega
  · show 0 ≤ p.y - (jsFloorDiv (p.y - (-32)) 64 * 64 + (-32))
    rw [jsFloorDiv_64]; omega
  · show p.y - (jsFloorDiv (p.y - (-32)) 64 * 64 + (-32)) < 64
    rw [jsFloorDiv_64]; omega
  · show 0 ≤ euclidModJS p.z 32
    rw [hz]; omega
  · show euclidModJS p.z 32 < 32
    rw [hz]; omega

/-- C4.  For every well-formed world, in-bounds position `p` and block id
below `2^10` (every registered id is), `setBlock p id` followed by
`getBlock p` returns `id`; and concretely, from an empty world,
`setBlock {31,0,0} GRASS` and `setBlock {32,0,0} GRASS` place the two
blocks in the chunks at chunk-x `0` and `1` (local x `31` and `0`), both
`getBlock`s return GRASS and both `isSolid`s are true. -/
theorem setBlock_getBlock_roundtrip :
    (∀ (w : World) (p : Vec3) (id : Nat), w.WellFormed →
      World.isInBounds p = true → id < 1024 →
      (w.setBlock p id).getBlock p = id) ∧
    (((emptyWorld.setBlock ⟨31, 0, 0⟩ BlockId.GRASS).setBlock ⟨32, 0, 0⟩
        BlockId.GRASS).getChunk 0 (-32) 0).map (fun c => c.getBlockId 31 32 0) =
      some BlockId.GRASS ∧
    (((emptyWorld.setBlock ⟨31, 0, 0⟩ BlockId.GRASS).setBlock ⟨32, 0, 0⟩
        BlockId.GRASS).getChunk 1 (-32) 0).map (fun c => c.getBlockId 0 32 0) =
      some BlockId.GRASS ∧
    ((emptyWorld.setBlock ⟨31, 0, 0⟩ BlockId.GRASS).setBlock ⟨32, 0, 0⟩
      BlockId.GRASS).getBlock ⟨31, 0, 0⟩ = BlockId.GRASS ∧
    ((emptyWorld.setBlock ⟨31, 0, 0⟩ BlockId.GRASS).setBlock ⟨32, 0, 0⟩
      BlockId.GRASS).getBlock ⟨32, 0, 0⟩ = BlockId.GRASS ∧
    ((emptyWorld.setBlock ⟨31, 0, 0⟩ BlockId.GRASS).setBlock ⟨32, 0, 0⟩
      BlockId.GRASS).isSolid ⟨31, 0, 0⟩ = true ∧
    ((emptyWorld.setBlock ⟨31, 0, 0⟩ BlockId.GRASS).setBlock ⟨32, 0, 0⟩
      BlockId.GRASS).isSolid ⟨32, 0, 0⟩ = true := by
  refine ⟨?_, by decide, by decide, by decide, by decide, by decide, by decide⟩
  intro w p id hwf hib hid
  simp only [World.getBlock]
  rw [getChunk_setBlock_center]
  have hs := getOrCreateChunk_fst_size w (World.worldToLocalCoord p).chunk.x
    (World.worldToLocalCoord p).yOffset (World.worldToLocalCoord p).chunk.z hwf
  exact (getBlockId_setBlockId_self _ _ _ _ _ (localPos_range p) hs).trans
    (Nat.mod_eq_of_lt hid)

/-- Witness for C4 at a concrete in-bounds position. -/
theorem setBlock_getBlock_roundtrip_witness :
    (emptyWorld.setBlock ⟨5, 5, 5⟩ 3).getBlock ⟨5, 5, 5⟩ = 3 :=
  setBlock_getBlock_roundtrip.1 emptyWorld ⟨5, 5, 5⟩ 3 emptyWorld_wellFormed
    (by decide) (by decide)

/-! ## C5: targeted dirty propagation of setBlock -/

/-- The two existing, clean, X-adjacent chunks `{0,0}` and `{1,0}` of the
boundary-propagation scenario (same `yOffset = -32` band). -/
def twoChunkWorld : World :=
  (emptyWorld.insertChunk 0 (-32) 0 (Chunk.new ⟨0, 0⟩ (-32))).insertChunk 1 (-32) 0
    (Chunk.new ⟨1, 0⟩ (-32))

/-- C5.  `setBlock` marks an already-existing neighboring chunk dirty
exactly when the written local coordinate lies on the chunk face toward
that neighbor (each of the six directions is characterized by
`(if local.? == face then markDirty else unchanged)` mapped over the
resident neighbor), leaves every chunk at any other key entirely
unchanged, never creates a chunk at any key other than the written
chunk's own, and in the concrete scenario `setBlock {31,0,0}` leaves both
X-adjacent chunks dirty while `setBlock {15,0,0}` leaves only `{0,0}`
dirty. -/
theorem setBlock_dirty_propagation :
    (∀ (w : World) (p : Vec3) (id : Nat) (qx qy qz : Int),
      (qx, qy, qz) ∉ World.setBlockKeys p →
      (w.setBlock p id).getChunk qx qy qz = w.getChunk qx qy qz) ∧
    (∀ (w : World) (p : Vec3) (id : Nat),
      (w.setBlock p id).getChunk ((World.worldToLocalCoord p).chunk.x - 1)
        (World.worldToLocalCoord p).yOffset (World.worldToLocalCoord p).chunk.z =
      (w.getChunk ((World.worldToLocalCoord p).chunk.x - 1)
        (World.worldToLocalCoord p).yOffset (World.worldToLocalCoord p).chunk.z).map
        (fun c => if (World.worldToLocalCoord p).localPos.x == 0 then
          c.markDirty else c)) ∧
    (∀ (w : World) (p : Vec3) (id : Nat),
      (w.setBlock p id).getChunk ((World.worldToLocalCoord p).chunk.x + 1)
        (World.worldToLocalCoord p).yOffset (World.worldToLocalCoord p).chunk.z =
      (w.getChunk ((World.worldToLocalCoord p).chunk.x + 1)
        (World.worldToLocalCoord p).yOffset (World.worldToLocalCoord p).chunk.z).map
        (fun c => if (World.worldToLocalCoord p).localPos.x == CHUNK_WIDTH - 1 then
          c.markDirty else c)) ∧
    (∀ (w : World) (p : Vec3) (id : Nat),
      (w.setBlock p id).getChunk (World.worldToLocalCoord p).chunk.x
        (World.worldToLocalCoord p).yOffset ((World.worldToLocalCoord p).chunk.z - 1) =
      (w.getChunk (World.worldToLocalCoord p).chunk.x
        (World.worldToLocalCoord p).yOffset ((World.worldToLocalCoord p).chunk.z - 1)).map
        (fun c => if (World.worldToLocalCoord p).localPos.z == 0 then
          c.markDirty else c)) ∧
    (∀ (w : World) (p : Vec3) (id : Nat),
      (w.setBlock p id).getChunk (World.worldToLocalCoord p).chunk.x
        (World.worldToLocalCoord p).yOffset ((World.worldToLocalCoord p).chunk.z + 1) =
      (w.getChunk (World.worldToLocalCoord p).chunk.x
        (World.worldToLocalCoord p).yOffset ((World.worldToLocalCoord p).chunk.z + 1)).map
        (fun c => if (World.worldToLocalCoord p).localPos.z == CHUNK_DEPTH - 1 then
          c.markDirty else c)) ∧
    (∀ (w : World) (p : Vec3) (id : Nat),
      (w.setBlock p id).getChunk (World.worldToLocalCoord p).chunk.x
        ((World.worldToLocalCoord p).yOffset - CHUNK_HEIGHT)
        (World.worldToLocalCoord p).chunk.z =
      (w.getChunk (World.worldToLocalCoord p).chunk.x
        ((World.worldToLocalCoord p).yOffset - CHUNK_HEIGHT)
        (World.worldToLocalCoord p).chunk.z).map
        (fun c => if (World.worldToLocalCoord p).localPos.y == 0 then
          c.markDirty else c)) ∧
    (∀ (w : World) (p : Vec3) (id : Nat),
      (w.setBlock p id).getChunk (World.worldToLocalCoord p).chunk.x
        ((World.worldToLocalCoord p).yOffset + CHUNK_HEIGHT)
        (World.worldToLocalCoord p).chunk.z =
      (w.getChunk (World.worldToLocalCoord p).chunk.x
        ((World.worldToLocalCoord p).yOffset + CHUNK_HEIGHT)
        (World.worldToLocalCoord p).chunk.z).map
        (fun c => if (World.worldToLocalCoord p).localPos.y == CHUNK_HEIGHT - 1 then
          c.markDirty else c)) ∧
    (∀ (w : World) (p : Vec3) (id : Nat) (qx qy qz : Int),
      ¬(qx = (World.worldToLocalCoord p).chunk.x ∧
        qy = (World.worldToLocalCoord p).yOffset ∧
        qz = (World.worldToLocalCoord p).chunk.z) →
      w.getChunk qx qy qz = none →
      (w.setBlock p id).getChunk qx qy qz = none) ∧
    ((twoChunkWorld.setBlock ⟨31, 0, 0⟩ 1).getChunk 0 (-32) 0).map Chunk.needsRemesh =
      some true ∧
    ((twoChunkWorld.setBlock ⟨31, 0, 0⟩ 1).getChunk 1 (-32) 0).map Chunk.needsRemesh =
      some true ∧
    ((twoChunkWorld.setBlock ⟨15, 0, 0⟩ 1).getChunk 0 (-32) 0).map Chunk.needsRemesh =
      some true ∧
    ((twoChunkWorld.setBlock ⟨15, 0, 0⟩ 1).getChunk 1 (-32) 0).map Chunk.needsRemesh =
      some false := by
  refine ⟨fun w p id qx qy qz h => getChunk_setBlock_other w p id h,
    getChunk_setBlock_xneg, getChunk_setBlock_xpos, getChunk_setBlock_zneg,
    getChunk_setBlock_zpos, getChunk_setBlock_yneg, getChunk_setBlock_ypos,
    ?_, by decide, by decide, by decide, by decide⟩
  intro w p id qx qy qz hnc hnone
  by_cases hmem : (qx, qy, qz) ∈ World.setBlockKeys p
  · simp only [World.setBlockKeys, List.mem_cons, List.not_mem_nil, or_false,
      Prod.mk.injEq] at hmem
    rcases hmem with h | h | h | h | h | h | h
    · exact absurd ⟨h.1, h.2.1, h.2.2⟩ hnc
    · obtain ⟨rfl, rfl, rfl⟩ := h
      rw [getChunk_setBlock_xneg, hnone]
      rfl
    · obtain ⟨rfl, rfl, rfl⟩ := h
      rw [getChunk_setBlock_xpos, hnone]
      rfl
    · obtain ⟨rfl, rfl, rfl⟩ := h
      rw [getChunk_setBlock_zneg, hnone]
      rfl
    · obtain ⟨rfl, rfl, rfl⟩ := h
      rw [getChunk_setBlock_zpos, hnone]
      rfl
    · obtain ⟨rfl, rfl, rfl⟩ := h
      rw [getChunk_setBlock_yneg, hnone]
      rfl
    · obtain ⟨rfl, rfl, rfl⟩ := h
      rw [getChunk_setBlock_ypos, hnone]
      rfl
  · rw [getChunk_setBlock_other w p id hmem, hnone]

/-- Witness for C5: the frame part at a distant key and the
never-creates part at the missing `z = -1` neighbor, in the concrete
boundary scenario. -/
theorem setBlock_dirty_propagation_witness :
    (twoChunkWorld.setBlock ⟨31, 0, 0⟩ 1).getChunk 7 (-32) 9 =
      twoChunkWorld.getChunk 7 (-32) 9 ∧
    (twoChunkWorld.setBlock ⟨31, 0, 0⟩ 1).getChunk 0 (-32) (-1) = none :=
  ⟨setBlock_dirty_propagation.1 twoChunkWorld ⟨31, 0, 0⟩ 1 7 (-32) 9 (by decide),
   (setBlock_dirty_propagation.2.2.2.2.2.2.2.1 twoChunkWorld ⟨31, 0, 0⟩ 1 0 (-32) (-1)
     (by decide) rfl)⟩

/-! ## Mesher counting lemmas -/

namespace ChunkMesher

/-- The per-tuple emission test of `meshStep` as a predicate. -/
def emitsAt (chunk : Chunk) (world : World) (c : Nat × Nat × Nat × Nat) : Bool :=
  decide (c.2.2.2 < 6) && emitFace chunk world c.1 c.2.1 c.2.2.1 c.2.2.2

theorem getFaceVertices_length (x y z : Int) (d : Nat) :
    (getFaceVertices x y z d).length = 12 := by
  unfold getFaceVertices
  rcases d with _ | _ | _ | _ | _ | d <;> rfl

theorem getFaceNormals_length (d : Nat) : (getFaceNormals d).length = 12 := by
  unfold getFaceNormals
  rcases d with _ | _ | _ | _ | _ | d <;> rfl

theorem addFace_vertices_length (f : Face) (x y z : Int) (d t : Nat) :
    (addFace f x y z d t).vertices.length = f.vertices.length + 12 := by
  unfold addFace
  simp [getFaceVertices_length]

theorem addFace_indices_length (f : Face) (x y z : Int) (d t : Nat) :
    (addFace f x y z d t).indices.length = f.indices.length + 6 := by
  unfold addFace
  simp

theorem meshFold_vertices_length (chunk : Chunk) (world : World) :
    ∀ (l : List (Nat × Nat × Nat × Nat)) (acc : Face),
      (l.foldl (meshStep chunk world) acc).vertices.length =
        acc.vertices.length + 12 * l.countP (emitsAt chunk world) := by
  intro l
  induction l with
  | nil => intro acc; simp
  | cons a t ih =>
    intro acc
    rw [List.foldl_cons, List.countP_cons, ih]
    unfold meshStep emitsAt
    split
    · next hd =>
      by_cases he : emitFace chunk world a.1 a.2.1 a.2.2.1 a.2.2.2
      · rw [if_pos he, addFace_vertices_length]
        simp [hd, he]
        ring
      · rw [if_neg he]
        simp [he]
    · next hd =>
      simp [hd]

theorem meshFold_indices_length (chunk : Chunk) (world : World) :
    ∀ (l : List (Nat × Nat × Nat × Nat)) (acc : Face),
      (l.foldl (meshStep chunk world) acc).indices.length =
        acc.indices.length + 6 * l.countP (emitsAt chunk world) := by
  intro l
  induction l with
  | nil => intro acc; simp
  | cons a t ih =>
    intro acc
    rw [List.foldl_cons, List.countP_cons, ih]
    unfold meshStep emitsAt
    split
    · next hd =>
      by_cases he : emitFace chunk world a.1 a.2.1 a.2.2.1 a.2.2.2
      · rw [if_pos he, addFace_indices_length]
        simp [hd, he]
        ring
      · rw [if_neg he]
        simp [he]
    · next hd =>
      simp [hd]

theorem buildFaces_vertices_length (chunk : Chunk) (world : World) :
    (buildFaces chunk world).vertices.length =
      12 * cellDirs.countP (emitsAt chunk world) := by
  unfold buildFaces
  rw [meshFold_vertices_length]
  simp [Face.empty]

theorem buildFaces_indices_length (chunk : Chunk) (world : World) :
    (buildFaces chunk world).indices.length =
      6 * cellDirs.countP (emitsAt chunk world) := by
  unfold buildFaces
  rw [meshFold_indices_length]
  simp [Face.empty]

end ChunkMesher

theorem countP_flatMap {α β : Type} (l : List α) (f : α → List β) (p : β → Bool) :
    (l.flatMap f).countP p = (l.map fun a => (f a).countP p).sum := by
  induction l with
  | nil => rfl
  | cons a t ih => simp [List.flatMap_cons, List.countP_append, ih]

theorem sum_map_range_single (n : Nat) (f : Nat → Nat) (v : Nat) (hv : v < n)
    (h0 : ∀ i, i < n → i ≠ v → f i = 0) :
    ((List.range n).map f).sum = f v := by
  induction n with
  | zero => omega
  | succ m ih =>
    rw [List.range_succ, List.map_append, List.sum_append]
    rcases Nat.lt_or_ge v m with h | h
    · rw [ih h fun i hi hne => h0 i (by omega) hne]
      simp [h0 m (by omega) (by omega)]
    · have hvm : v = m := by omega
      subst hvm
      have hz : ((List.range v).map f).sum = 0 := by
        apply List.sum_eq_zero
        intro x hx
        rw [List.mem_map] at hx
        obtain ⟨i, hi, rfl⟩ := hx
        rw [List.mem_range] at hi
        exact h0 i (by omega) (by omega)
      simp [hz]

/-- When the emission test can only succeed on the single cell
`(x0, y0, z0)`, the count over the whole iteration space collapses to the
count over that cell's six directions. -/
theorem countP_cellDirs_single (q : Nat × Nat × Nat × Nat → Bool) (x0 y0 z0 : Nat)
    (hx : x0 < 32) (hy : y0 < 64) (hz : z0 < 32)
    (h0 : ∀ x y z d, x < 32 → y < 64 → z < 32 → d < 6 →
      ¬(x = x0 ∧ y = y0 ∧ z = z0) → q (x, y, z, d) = false) :
    ChunkMesher.cellDirs.countP q =
      ((List.range 6).map fun d => (x0, y0, z0, d)).countP q := by
  unfold ChunkMesher.cellDirs
  rw [countP_flatMap]
  refine (sum_map_range_single 32 _ x0 hx ?_).trans ?_
  · intro i hi hne
    rw [List.countP_eq_zero]
    intro a ha
    rw [List.mem_flatMap] at ha
    obtain ⟨y, hy1, ha⟩ := ha
    rw [List.mem_flatMap] at ha
    obtain ⟨z, hz1, ha⟩ := ha
    rw [List.mem_map] at ha
    obtain ⟨d, hd1, rfl⟩ := ha
    rw [List.mem_range] at hy1 hz1 hd1
    simp only [ne_eq, Bool.not_eq_true]
    exact h0 i y z d hi hy1 hz1 hd1 (fun hc => hne hc.1)
  rw [countP_flatMap]
  refine (sum_map_range_single 64 _ y0 hy ?_).trans ?_
  · intro i hi hne
    rw [List.countP_eq_zero]
    intro a ha
    rw [List.mem_flatMap] at ha
    obtain ⟨z, hz1, ha⟩ := ha
    rw [List.mem_map] at ha
    obtain ⟨d, hd1, rfl⟩ := ha
    rw [List.mem_range] at hz1 hd1
    simp only [ne_eq, Bool.not_eq_true]
    exact h0 x0 i z d hx hi hz1 hd1 (fun hc => hne hc.2.1)
  rw [countP_flatMap]
  refine (sum_map_range_single 32 _ z0 hz ?_).trans ?_
  · intro i hi hne
    rw [List.countP_eq_zero]
    intro a ha
    rw [List.mem_map] at ha
    obtain ⟨d, hd1, rfl⟩ := ha
    rw [List.mem_range] at hd1
    simp only [ne_eq, Bool.not_eq_true]
    exact h0 x0 y0 i d hx hy hi hd1 (fun hc => hne hc.2.2)
  rfl

/-! ## C6 / C10: mesher scenarios -/

theorem emitsAt_false_of_air (ch : Chunk) (w : World) (x y z d : Nat)
    (h : ch.getBlockId x y z = 0) :
    ChunkMesher.emitsAt ch w (x, y, z, d) = false := by
  unfold ChunkMesher.emitsAt ChunkMesher.emitFace
  simp [h]

/-- A single grass voxel at local `(5, 37, 5)` in an otherwise-air
chunk. -/
def meshChunk1 : Chunk := (Chunk.new ⟨0, 0⟩ (-32)).setBlockId 5 37 5 1

def meshWorld1 : World := emptyWorld.insertChunk 0 (-32) 0 meshChunk1

/-- The same single voxel moved to local `(0, 37, 5)`, so that its `-x`
neighbor lives in a different chunk. -/
def meshChunk2 : Chunk := (Chunk.new ⟨0, 0⟩ (-32)).setBlockId 0 37 5 1

/-- The chunk at chunk-x `-1` holding an opaque solid brick at local
`(31, 37, 5)` — the cross-chunk neighbor of `meshChunk2`'s voxel. -/
def meshNbrChunk : Chunk := (Chunk.new ⟨-1, 0⟩ (-32)).setBlockId 31 37 5 3

def meshWorld2 : World :=
  (emptyWorld.insertChunk 0 (-32) 0 meshChunk2).insertChunk (-1) (-32) 0 meshNbrChunk

theorem meshScenario1_count :
    ChunkMesher.cellDirs.countP (ChunkMesher.emitsAt meshChunk1 meshWorld1) = 6 := by
  refine (countP_cellDirs_single _ 5 37 5 (by omega) (by omega) (by omega) ?_).trans
    (by decide)
  intro x y z d hx hy hz hd hne
  apply emitsAt_false_of_air
  unfold meshChunk1
  refine (getBlockId_setBlockId_ne _ _ _ _ _ _ _ _ ?_).trans (getBlockId_new _ _ _ _ _)
  rintro ⟨a, b, c⟩
  exact hne ⟨by exact_mod_cast a, by exact_mod_cast b, by exact_mod_cast c⟩

theorem meshScenario2_count :
    ChunkMesher.cellDirs.countP (ChunkMesher.emitsAt meshChunk2 meshWorld2) = 5 := by
  refine (countP_cellDirs_single _ 0 37 5 (by omega) (by omega) (by omega) ?_).trans
    (by decide)
  intro x y z d hx hy hz hd hne
  apply emitsAt_false_of_air
  unfold meshChunk2
  refine (getBlockId_setBlockId_ne _ _ _ _ _ _ _ _ ?_).trans (getBlockId_new _ _ _ _ _)
  rintro ⟨a, b, c⟩
  exact hne ⟨by exact_mod_cast a, by exact_mod_cast b, by exact_mod_cast c⟩

theorem countP_cellDirs_zero (ch : Chunk) (w : World)
    (h : ∀ x y z : Int, ch.getBlockId x y z = 0) :
    ChunkMesher.cellDirs.countP (ChunkMesher.emitsAt ch w) = 0 := by
  rw [List.countP_eq_zero]
  intro a ha
  unfold ChunkMesher.cellDirs at ha
  rw [List.mem_flatMap] at ha
  obtain ⟨x, _, ha⟩ := ha
  rw [List.mem_flatMap] at ha
  obtain ⟨y, _, ha⟩ := ha
  rw [List.mem_flatMap] at ha
  obtain ⟨z, _, ha⟩ := ha
  rw [List.mem_map] at ha
  obtain ⟨d, _, rfl⟩ := ha
  simp only [Bool.not_eq_true]
  exact emitsAt_false_of_air ch w x y z d (h x y z)

/-- The all-air chunk of the "no mesh" scenario. -/
def airChunk : Chunk := Chunk.new ⟨0, 0⟩ (-32)

def airWorld : World := emptyWorld.insertChunk 0 (-32) 0 airChunk

/-- C6.  `createChunkMesh` emits one quad — 12 vertex coordinates and 6
triangle indices — for exactly the `(voxel, direction)` pairs whose voxel
is non-air with a registered id and whose world-space neighbor (resolved
through the `World`, hence across chunk boundaries) is non-opaque; a
single solid voxel in an otherwise-air world yields exactly 6 faces, the
same voxel with one opaque solid neighbor in the adjacent chunk yields 5,
and an all-air chunk yields no mesh (`none`). -/
theorem mesher_face_culling :
    (∀ (chunk : Chunk) (world : World),
      (ChunkMesher.buildFaces chunk world).vertices.length =
        12 * ChunkMesher.cellDirs.countP (ChunkMesher.emitsAt chunk world) ∧
      (ChunkMesher.buildFaces chunk world).indices.length =
        6 * ChunkMesher.cellDirs.countP (ChunkMesher.emitsAt chunk world)) ∧
    (ChunkMesher.createChunkMesh meshChunk1 meshWorld1).1.map
      (fun f => f.indices.length) = some (6 * 6) ∧
    (ChunkMesher.createChunkMesh meshChunk1 meshWorld1).1.map
      (fun f => f.vertices.length) = some (12 * 6) ∧
    (ChunkMesher.createChunkMesh meshChunk2 meshWorld2).1.map
      (fun f => f.indices.length) = some (6 * 5) ∧
    (ChunkMesher.createChunkMesh meshChunk2 meshWorld2).1.map
      (fun f => f.vertices.length) = some (12 * 5) ∧
    (ChunkMesher.createChunkMesh airChunk airWorld).1 = none := by
  refine ⟨fun chunk world => ⟨ChunkMesher.buildFaces_vertices_length chunk world,
    ChunkMesher.buildFaces_indices_length chunk world⟩, ?_, ?_, ?_, ?_, ?_⟩
  · simp only [ChunkMesher.createChunkMesh, ChunkMesher.buildFaces_vertices_length,
      meshScenario1_count]
    rw [if_neg (by norm_num)]
    show some ((ChunkMesher.buildFaces meshChunk1 meshWorld1).indices.length) = _
    rw [ChunkMesher.buildFaces_indices_length, meshScenario1_count]
  · simp only [ChunkMesher.createChunkMesh, ChunkMesher.buildFaces_vertices_length,
      meshScenario1_count]
    rw [if_neg (by norm_num)]
    show some ((ChunkMesher.buildFaces meshChunk1 meshWorld1).vertices.length) = _
    rw [ChunkMesher.buildFaces_vertices_length, meshScenario1_count]
  · simp only [ChunkMesher.createChunkMesh, ChunkMesher.buildFaces_vertices_length,
      meshScenario2_count]
    rw [if_neg (by norm_num)]
    show some ((ChunkMesher.buildFaces meshChunk2 meshWorld2).indices.length) = _
    rw [ChunkMesher.buildFaces_indices_length, meshScenario2_count]
  · simp only [ChunkMesher.createChunkMesh, ChunkMesher.buildFaces_vertices_length,
      meshScenario2_count]
    rw [if_neg (by norm_num)]
    show some ((ChunkMesher.buildFaces meshChunk2 meshWorld2).vertices.length) = _
    rw [ChunkMesher.buildFaces_vertices_length, meshScenario2_count]
  · have h0 : ChunkMesher.cellDirs.countP (ChunkMesher.emitsAt airChunk airWorld) = 0 :=
      countP_cellDirs_zero _ _ (fun x y z => getBlockId_new ⟨0, 0⟩ (-32) x y z)
    simp only [ChunkMesher.createChunkMesh, ChunkMesher.buildFaces_vertices_length, h0]
    rw [if_pos (by norm_num)]

/-- The dirty all-air chunk of the C10 scenario. -/
def airChunkDirty : Chunk := (Chunk.new ⟨0, 0⟩ (-32)).markDirty

def airWorldDirty : World := emptyWorld.insertChunk 0 (-32) 0 airChunkDirty

theorem airDirty_mesh_none :
    (ChunkMesher.createChunkMesh airChunkDirty airWorldDirty).1 = none := by
  have h0 : ChunkMesher.cellDirs.countP
      (ChunkMesher.emitsAt airChunkDirty airWorldDirty) = 0 :=
    countP_cellDirs_zero _ _ (fun x y z => getBlockId_new ⟨0, 0⟩ (-32) x y z)
  simp only [ChunkMesher.createChunkMesh, ChunkMesher.buildFaces_vertices_length, h0]
  rw [if_pos (by norm_num)]

/-- C10.  When `createChunkMesh` emits zero faces it returns `null`
without touching the chunk — `clearDirty` runs only on the non-null
path — so a dirty all-air chunk still reports `needsRemesh() == true`
after the rebuild. -/
theorem mesh_none_keeps_dirty :
    (∀ (chunk : Chunk) (world : World),
      (ChunkMesher.createChunkMesh chunk world).1 = none →
      (ChunkMesher.createChunkMesh chunk world).2 = chunk) ∧
    (ChunkMesher.createChunkMesh airChunkDirty airWorldDirty).1 = none ∧
    ((ChunkMesher.createChunkMesh airChunkDirty airWorldDirty).2).needsRemesh = true := by
  have hgen : ∀ (chunk : Chunk) (world : World),
      (ChunkMesher.createChunkMesh chunk world).1 = none →
      (ChunkMesher.createChunkMesh chunk world).2 = chunk := by
    intro chunk world h
    simp only [ChunkMesher.createChunkMesh] at h ⊢
    split
    · rfl
    · next hc =>
      rw [if_neg hc] at h
      exact absurd h (by simp)
  refine ⟨hgen, airDirty_mesh_none, ?_⟩
  rw [hgen _ _ airDirty_mesh_none]
  rfl

/-- Witness for C10: the zero-face path applied at the concrete dirty
all-air chunk. -/
theorem mesh_none_keeps_dirty_witness :
    (ChunkMesher.createChunkMesh airChunkDirty airWorldDirty).2 = airChunkDirty :=
  mesh_none_keeps_dirty.1 airChunkDirty airWorldDirty airDirty_mesh_none

/-! ## C9: getChunksInRadius -/

/-- C9 (amended).  A chunk is returned by `getChunksInRadius` exactly
when it is resident at one of the four vertical bands under some key in
the square box of chunk cells of half-width `⌈radius/32⌉` around the
chunk containing `center` (the source iterates that box, not a Euclidean
disc); the lookup is `getChunk`, which never creates a chunk. -/
theorem getChunksInRadius_mem (w : World) (center : Vec3) (radius : ℚ) (c : Chunk) :
    c ∈ w.getChunksInRadius center radius ↔
      ∃ cx yOff cz : Int,
        w.getChunk cx yOff cz = some c ∧ yOff ∈ World.yBands ∧
        (World.worldToChunkCoord center.x center.z).x - Rat.ceil (radius / 32) ≤ cx ∧
        cx ≤ (World.worldToChunkCoord center.x center.z).x + Rat.ceil (radius / 32) ∧
        (World.worldToChunkCoord center.x center.z).z - Rat.ceil (radius / 32) ≤ cz ∧
        cz ≤ (World.worldToChunkCoord center.x center.z).z + Rat.ceil (radius / 32) := by
  simp only [World.getChunksInRadius, List.mem_flatMap, List.mem_filterMap,
    mem_intRangeIncl]
  constructor
  · rintro ⟨x, ⟨hx1, hx2⟩, z, ⟨hz1, hz2⟩, y, hy, hc⟩
    exact ⟨x, y, z, hc, hy, hx1, hx2, hz1, hz2⟩
  · rintro ⟨cx, yOff, cz, hc, hy, h1, h2, h3, h4⟩
    exact ⟨cx, ⟨h1, h2⟩, cz, ⟨h3, h4⟩, yOff, hy, hc⟩

/-- Modelled from the spec: the claim's "horizontal chunk-cell lies
within `radius` of `center`" — some column `(wx, wz)` of the chunk's
`32×32` horizontal cell is within Euclidean distance `radius` of the
center's `(x, z)`. -/
def chunkCellWithinRadius (center : Vec3) (radius : ℚ) (cx cz : Int) : Prop :=
  ∃ wx wz : Int,
    32 * cx ≤ wx ∧ wx < 32 * cx + 32 ∧ 32 * cz ≤ wz ∧ wz < 32 * cz + 32 ∧
    ((wx : ℚ) - (center.x : ℚ)) ^ 2 + ((wz : ℚ) - (center.z : ℚ)) ^ 2 ≤ radius ^ 2

/-- A world whose only chunk sits at chunk coordinate `(1, 1)` (band
`-32`). -/
def radiusWorld : World := emptyWorld.insertChunk 1 (-32) 1 (Chunk.new ⟨1, 1⟩ (-32))

/-- C9 (counterexample).  With `center = (0,0,0)` and `radius = 1`,
`getChunksInRadius` returns the resident chunk at chunk cell `(1, 1)` —
`Math.ceil(radius/32) = 1` puts it in the iterated box — although no
column of that cell lies within distance 1 of the center, so the claim's
"returns only chunks whose horizontal chunk-cell lies within radius of
center" fails on the code. -/
theorem getChunksInRadius_overreturns :
    ((radiusWorld.getChunksInRadius ⟨0, 0, 0⟩ 1).map
      (fun c => (c.coord.x, c.coord.z))) = [(1, 1)] ∧
    ¬chunkCellWithinRadius ⟨0, 0, 0⟩ 1 1 1 := by
  constructor
  · have hcr : Rat.ceil ((1 : ℚ) / 32) = 1 := by norm_num [Rat.ceil]
    simp only [World.getChunksInRadius]
    rw [hcr]
    decide
  · rintro ⟨wx, wz, h1, h2, h3, h4, h5⟩
    have hx : (32 : ℚ) ≤ (wx : ℚ) := by exact_mod_cast (by omega : (32 : Int) ≤ wx)
    have hz : (32 : ℚ) ≤ (wz : ℚ) := by exact_mod_cast (by omega : (32 : Int) ≤ wz)
    push_cast at h5
    nlinarith [sq_nonneg ((wx : ℚ) - 32), sq_nonneg ((wz : ℚ) - 32)]

/-! ## C1: terrain generation and the unseeded tree height -/

theorem genColumn_no_rand (noise : NoiseFns) (s : WorldSettings) (r1 r2 : Nat → ℚ)
    (cx yOff cz : Int) (st : World × Nat) (c : Nat × Nat) (h : s.trees = 0) :
    WorldGenerator.genColumn noise s r1 cx yOff cz st c =
      WorldGenerator.genColumn noise s r2 cx yOff cz st c := by
  unfold WorldGenerator.genColumn
  rw [if_neg (by rw [h]; rintro ⟨-, h2⟩; exact lt_irrefl 0 h2),
    if_neg (by rw [h]; rintro ⟨-, h2⟩; exact lt_irrefl 0 h2)]

theorem foldl_genColumn_no_rand (noise : NoiseFns) (s : WorldSettings)
    (r1 r2 : Nat → ℚ) (cx yOff cz : Int) (h : s.trees = 0) :
    ∀ (l : List (Nat × Nat)) (st : World × Nat),
      l.foldl (WorldGenerator.genColumn noise s r1 cx yOff cz) st =
        l.foldl (WorldGenerator.genColumn noise s r2 cx yOff cz) st := by
  intro l
  induction l with
  | nil => intro st; rw [List.foldl_nil, List.foldl_nil]
  | cons a t ih =>
    intro st
    rw [List.foldl_cons, List.foldl_cons, genColumn_no_rand noise _ r1 r2 _ _ _ _ _ h]
    exact ih _

/-- With tree decoration disabled, `generateChunk` never consumes the
`Math.random()` stream: its output is a function of the seed-derived
noise alone. -/
theorem generateChunk_no_trees_deterministic (noise : NoiseFns) (r1 r2 : Nat → ℚ)
    (w : World) (cx yOff cz : Int) (h : w.settings.trees = 0) :
    WorldGenerator.generateChunk noise r1 w cx yOff cz =
      WorldGenerator.generateChunk noise r2 w cx yOff cz :=
  foldl_genColumn_no_rand noise w.settings r1 r2 cx yOff cz h _ _

set_option maxRecDepth 200000 in
set_option maxHeartbeats 2000000 in
/-- C1 (divergence witnessed).  `placeTree` draws the tree height from
the global **unseeded** `Math.random()` (`4 + Math.floor(rand * 3)`), so
two runs over identical seed-derived state can differ: with draws `0`
and `1/3` — both legal `Math.random()` values — the voxel four above the
tree base holds GRASS (canopy) in one run and WOOD (trunk) in the other,
so byte-identical output for a fixed seed fails wherever a tree is
placed. -/
theorem placeTree_unseeded_random_divergence :
    (0 : ℚ) ≤ 0 ∧ (0 : ℚ) < 1 ∧ (0 : ℚ) ≤ 1 / 3 ∧ (1 / 3 : ℚ) < 1 ∧
    (WorldGenerator.placeTree emptyWorld 5 4 5 0).getBlock ⟨5, 8, 5⟩ = BlockId.GRASS ∧
    (WorldGenerator.placeTree emptyWorld 5 4 5 (1 / 3)).getBlock ⟨5, 8, 5⟩ =
      BlockId.WOOD := by
  refine ⟨by norm_num, by norm_num, by norm_num, by norm_num, ?_, ?_⟩
  · have h : WorldGenerator.placeTree emptyWorld 5 4 5 0 =
        WorldGenerator.placeTreeWithHeight emptyWorld 5 4 5 4 := by
      unfold WorldGenerator.placeTree
      norm_num [Rat.floor_def']
    rw [h]
    decide
  · have h : WorldGenerator.placeTree emptyWorld 5 4 5 (1 / 3) =
        WorldGenerator.placeTreeWithHeight emptyWorld 5 4 5 5 := by
      unfold WorldGenerator.placeTree
      norm_num [Rat.floor_def']
    rw [h]
    decide
